import Mathlib

/-!
junosSend: a shallow embedding of `main.go`

Go strings are modelled as Lean `String`s (the work order comes out of
`json.Unmarshal`, so every command and address is valid UTF-8 and splitting
or replacing on ASCII patterns agrees on bytes and on characters; the replies
of the devices are taken to be valid UTF-8 as well).

The program is embedded as a state transformer over the unread input, the
number of answers each collaborator has given, and the trace of observable
actions. Library calls whose code is not in the repository (`strings.ToLower`,
`xml.Unmarshal`, the NETCONF session, the file system) are parameters of the
model, gathered in `Env`. The deferred `s.Close()` calls, which run when
`main` returns, are not traced.
-/

namespace JunosSend

/-! ## Library functions used by the program -/

/-- Go `strings.Split(s, sep)` for a one-character separator, on the characters
of `s`: the fields between the separators, in order; never empty. -/
def splitChars (sep : Char) : List Char → List (List Char)
  | [] => [[]]
  | c :: cs =>
    if c = sep then [] :: splitChars sep cs
    else
      match splitChars sep cs with
      | [] => [[c]]
      | f :: fs => (c :: f) :: fs

/-- Go `strings.Split(s, " ")`. -/
def Split (s : String) (sep : Char) : List String :=
  (splitChars sep s.data).map String.mk

/-- Go `strings.Replace(s, old, new, -1)` on characters, for a non-empty `old`:
scanning from the left, every non-overlapping occurrence of `old` is replaced.
The first argument counts the characters of a match still to be skipped. -/
def replaceChars (old new : List Char) : Nat → List Char → List Char
  | _, [] => []
  | skip + 1, _ :: cs => replaceChars old new skip cs
  | 0, c :: cs =>
    if old.isPrefixOf (c :: cs) then new ++ replaceChars old new (old.length - 1) cs
    else c :: replaceChars old new 0 cs

/-- Go `strings.Replace(s, old, new, -1)` (`old` non-empty). -/
def Replace (s old new : String) : String :=
  ⟨replaceChars old.data new.data 0 s.data⟩

/-! ## Pure functions of `main.go` -/

/-- Source: `StringSliceContains` (main.go 163-171). -/
def StringSliceContains : List String → String → Bool
  | [], _ => false
  | v :: rest, checkValue => if v = checkValue then true else StringSliceContains rest checkValue

/-- Source: `commandOutputStripper` (main.go 173-176). -/
def commandOutputStripper (input : String) : String :=
  Replace (Replace input "<output>" "") "</output>" ""

/-- Source: `validConfigPrefix` (main.go 256). -/
def validConfigPrefix : List String := ["set", "delete", "activate", "deactivate"]

/-- Source: `validOpPOrefix` (main.go 257). -/
def validOpPOrefix : List String := ["show"]

/-- Index 0 of `strings.Split(i, " ")` (main.go 262, 266); the slice is never
empty, so the index expression cannot go out of range. -/
def firstField (i : String) : String :=
  match Split i ' ' with
  | [] => ""
  | f :: _ => f

/-- The test of the classifier loop (main.go 260-271): `true` when command `i`
is appended to `badCmds` under `scriptMode`. -/
def rejects (scriptMode : String) (i : String) : Bool :=
  if scriptMode = "c" then !StringSliceContains validConfigPrefix (firstField i)
  else if scriptMode = "o" then !StringSliceContains validOpPOrefix (firstField i)
  else false

/-- A command is accepted by the classifier when it is not added to `badCmds`. -/
def accepts (scriptMode : String) (i : String) : Bool := !rejects scriptMode i

/-- Go `strings.Trim(s, cutset)`: the leading and trailing characters of `s`
that occur in `cutset` are removed. -/
def Trim (s cutset : String) : String :=
  ⟨((s.data.dropWhile (fun c => cutset.data.contains c)).reverse.dropWhile
      (fun c => cutset.data.contains c)).reverse⟩

/-! ## The world outside the program -/

/-- Source: `cmdDataStruct` (main.go 23-28), the decoded work order. -/
structure cmdDataStruct where
  Description : String
  ReferenceData : String
  DeviceIPs : List String
  CommandList : List String

/-- The pair `(res, err)` returned by `s.Exec`: `reply` is `res.Data` when `res`
is not nil, `err` tells whether `err != nil`. -/
structure ExecResult where
  reply : Option String
  err : Bool
  deriving DecidableEq

/-- What `os.Stat` can answer. -/
inductive StatResult where
  | dir
  | file
  | notExist
  | otherErr
  deriving DecidableEq, Repr

/-- The collaborators of the program that are not in the repository: library
functions and the answers of the devices and of the file system, in call
order. An error is carried as its message. -/
structure Env where
  /-- Go `strings.ToLower`. -/
  toLower : String → String
  /-- Go `xml.Unmarshal` into `rpcConfigSet`: the `configuration-output` text, or the error. -/
  unmarshal : String → Except String String
  /-- Whether `term.ReadPassword` can read (standard input is a terminal). -/
  terminal : Bool
  /-- Go `term.ReadPassword` on a terminal: the password read from the line typed
  (backspaces applied, the line end dropped). -/
  passwordOf : String → String
  /-- Error of the n-th `netconf.DialSSH`, `none` when the session opens. -/
  dial : Nat → Option String
  /-- Result of the n-th `s.Exec`. -/
  exec : Nat → ExecResult
  /-- Result of the n-th `os.Stat`. -/
  stat : Nat → StatResult
  /-- Error of the n-th `os.Mkdir`, `os.OpenFile` or `WriteString`, `none` on success. -/
  fileOp : Nat → Option String

/-- One observable action of a run. -/
inductive Event where
  /-- Console output: the text written to standard output. -/
  | print (text : String)
  /-- Message of `log.Fatal` or `log.Fatalf`, which the logger writes to standard
  error after a time stamp. -/
  | log (message : String)
  /-- Question of `ForceSelect(question, ..)`, printed before a line is read. -/
  | ask (question : String)
  /-- Return of `ForceSelect(question, ..)` with `choice`. -/
  | answer (question choice : String)
  /-- Call of `netconf.DialSSH(addr, sshConfig)`. -/
  | dial (addr : String)
  /-- Call of `s.Exec(netconf.RawMethod(rpc))` on the session of device `dev`. -/
  | exec (dev rpc : String)
  /-- Call of `os.Mkdir(path, 0755)`. -/
  | mkdir (path : String)
  /-- Call of `os.OpenFile(path, os.O_CREATE, 0755)`. -/
  | create (path : String)
  /-- Call of `os.OpenFile(path, os.O_APPEND|os.O_WRONLY, 0755)`. -/
  | openAppend (path : String)
  /-- Call of `WriteString(text)` on the file opened for appending at `path`. -/
  | write (path text : String)
  deriving DecidableEq, Repr

/-- Program state: the unread lines of standard input (one line per read, as
a terminal delivers them), how many calls each collaborator has answered,
and the actions so far. -/
structure St where
  stdin : List String
  dials : Nat
  execs : Nat
  stats : Nat
  fileOps : Nat
  trace : List Event
  deriving DecidableEq

/-- How a run can end before `main` returns. -/
inductive Halt where
  /-- Exit by `os.Exit(0)`. -/
  | exit0
  /-- Exit by `log.Fatal` or `log.Fatalf`. -/
  | fatal
  /-- Crash by `panic(err)` or by a nil pointer dereference. -/
  | panicked
  /-- The loop of `ForceSelect` never ends (standard input is exhausted). -/
  | hung
  deriving DecidableEq, Repr

/-- Result of running a piece of the program from a state. -/
inductive Outcome (α : Type) where
  | ok (a : α) (s : St)
  | halt (h : Halt) (s : St)
  deriving DecidableEq

/-- The state a piece of the program ends in. -/
def Outcome.state {α : Type} : Outcome α → St
  | .ok _ s => s
  | .halt _ s => s

/-- The actions recorded when a piece of the program ends. -/
def Outcome.trace {α : Type} (o : Outcome α) : List Event := o.state.trace

/-- Why the run stopped, `none` when the piece ran to its end. -/
def Outcome.halted {α : Type} : Outcome α → Option Halt
  | .ok _ _ => none
  | .halt h _ => some h

/-- Programs: state transformers that may stop the run. -/
def M (α : Type) : Type := St → Outcome α

instance : Monad M where
  pure a := fun s => .ok a s
  bind m f := fun s =>
    match m s with
    | .ok a s1 => f a s1
    | .halt h s1 => .halt h s1

/-- Record an action. -/
def emit (e : Event) : M Unit :=
  fun s => .ok () { s with trace := s.trace ++ [e] }

/-- Stop the run. -/
def stop {α : Type} (h : Halt) : M α :=
  fun s => .halt h s

/-- Go `ReadString('\n')` on standard input, the error ignored: the next line, or
the empty string at end of input. -/
def readLine : M String :=
  fun s =>
    match s.stdin with
    | [] => .ok "" s
    | l :: rest => .ok l { s with stdin := rest }

/-- A read of standard input that tells the end of input apart: the next
line, or `none` at end of input. -/
def readLineOrEnd : M (Option String) :=
  fun s =>
    match s.stdin with
    | [] => .ok none s
    | l :: rest => .ok (some l) { s with stdin := rest }

/-- The text `color.Red`, `color.Green` and `color.Yellow` print for a format
without arguments: the format, with a newline added when it does not end in
one. -/
def colorLine (format : String) : String :=
  if format.data.getLast? = some '\n' then format else format ++ "\n"

/-- Go `netconf.DialSSH(addr, sshConfig)`: the error, if any. -/
def dialSSH (env : Env) (addr : String) : M (Option String) :=
  fun s => .ok (env.dial s.dials)
    { s with dials := s.dials + 1, trace := s.trace ++ [Event.dial addr] }

/-- Go `s.Exec(netconf.RawMethod(rpc))` on the session of device `dev`. -/
def sessionExec (env : Env) (dev rpc : String) : M ExecResult :=
  fun s => .ok (env.exec s.execs)
    { s with execs := s.execs + 1, trace := s.trace ++ [Event.exec dev rpc] }

/-- Go `os.Stat(file)`. -/
def osStat (env : Env) : M StatResult :=
  fun s => .ok (env.stat s.stats) { s with stats := s.stats + 1 }

/-- A call of `os.Mkdir`, `os.OpenFile` or `WriteString`, recorded as `e`: the error, if any. -/
def fileCall (env : Env) (e : Event) : M (Option String) :=
  fun s => .ok (env.fileOp s.fileOps)
    { s with fileOps := s.fileOps + 1, trace := s.trace ++ [e] }

/-- Go `unicode.IsSpace`. -/
def isSpace (c : Char) : Bool :=
  c = '\t' || c = '\n' || c = '\x0b' || c = '\x0c' || c = '\r' || c = '\x20'
    || c = '\u0085' || c = '\u00a0' || c = '\u1680'
    || (0x2000 ≤ c.toNat && c.toNat ≤ 0x200a)
    || c = '\u2028' || c = '\u2029' || c = '\u202f' || c = '\u205f' || c = '\u3000'

/-- Go `strings.TrimSpace`. -/
def TrimSpace (s : String) : String :=
  ⟨((s.data.dropWhile isSpace).reverse.dropWhile isSpace).reverse⟩

/-! ## The stateful functions of `main.go` -/

/-- Source: `credentials` (main.go 41-57). -/
def credentials (env : Env) : M (String × String) := do
  emit (Event.print "Enter Username: ")
  let username ← readLine
  emit (Event.print "Enter Password: ")
  let password ←
    if env.terminal then
      match ← readLineOrEnd with
      | some line => pure (env.passwordOf line)
      | none =>
        emit (Event.print "\nPassword typed: \n")
        pure ""
    else do
      emit (Event.print "\nPassword typed: \n")
      pure ""
  emit (Event.print "\n")
  pure (TrimSpace username, TrimSpace password)

/-- Source: `FileExists` (main.go 59-66). -/
def FileExists (env : Env) : M Bool := do
  let r ← osStat env
  pure (r != StatResult.notExist)

/-- Source: `FileIsADirectory` (main.go 68-74). -/
def FileIsADirectory (env : Env) : M Bool := do
  let r ← osStat env
  pure (r == StatResult.dir)

/-- Source: `FileExistsAndIsADirectory` (main.go 77-82). -/
def FileExistsAndIsADirectory (env : Env) : M Bool := do
  if ← FileExists env then
    if ← FileIsADirectory env then pure true else pure false
  else pure false

/-- Source: `FileExistsAndIsNotADirectory` (main.go 84-89). -/
def FileExistsAndIsNotADirectory (env : Env) : M Bool := do
  if ← FileExists env then
    if ← FileIsADirectory env then pure false else pure true
  else pure false

/-- The loop of `ForceSelect` (main.go 121-131) over the unread lines `lines` of
standard input. At end of input every read gives the empty string, so the
loop returns at once or never; of a loop that never ends one question is
recorded. -/
def forceSelectLoop (env : Env) (optQuestion optOne optTwo : String) :
    List String → St → Outcome String
  | [], s =>
    let s1 : St := { s with stdin := [], trace := s.trace ++ [Event.ask optQuestion] }
    let inputSelTrim := Trim (Trim (Trim "" "\n") "\n\r") "\r"
    if env.toLower inputSelTrim = optOne ∨ env.toLower inputSelTrim = optTwo then
      .ok (env.toLower inputSelTrim)
        { s1 with trace := s1.trace ++ [Event.answer optQuestion (env.toLower inputSelTrim)] }
    else .halt Halt.hung s1
  | inputSel :: rest, s =>
    let s1 : St := { s with stdin := rest, trace := s.trace ++ [Event.ask optQuestion] }
    let inputSelTrim := Trim (Trim (Trim inputSel "\n") "\n\r") "\r"
    if env.toLower inputSelTrim = optOne ∨ env.toLower inputSelTrim = optTwo then
      .ok (env.toLower inputSelTrim)
        { s1 with trace := s1.trace ++ [Event.answer optQuestion (env.toLower inputSelTrim)] }
    else forceSelectLoop env optQuestion optOne optTwo rest s1

/-- Source: `ForceSelect` (main.go 117-133). -/
def ForceSelect (env : Env) (optQuestion optOne optTwo : String) : M String :=
  fun s => forceSelectLoop env optQuestion optOne optTwo s.stdin s

/-- Print every entry of a list, each rendered by `fmt`. -/
def printEach (fmt : String → String) : List String → M Unit
  | [] => pure ()
  | i :: rest => do
    emit (Event.print (fmt i))
    printEach fmt rest

/-- Source: the classifier loop of `main` (main.go 259-272), `badCmds` threaded
through the iterations. -/
def classifyLoop (scriptMode : String) : List String → List String → M (List String)
  | [], badCmds => pure badCmds
  | i :: rest, badCmds =>
    if scriptMode = "c" then
      if !StringSliceContains validConfigPrefix (firstField i) then
        classifyLoop scriptMode rest (badCmds ++ [i])
      else classifyLoop scriptMode rest badCmds
    else if scriptMode = "o" then
      if !StringSliceContains validOpPOrefix (firstField i) then
        classifyLoop scriptMode rest (badCmds ++ [i])
      else classifyLoop scriptMode rest badCmds
    else do
      emit (Event.print "What are we doing here?\n")
      classifyLoop scriptMode rest badCmds

/-- Source: the `setString` loop (main.go 311-314, 421-424). -/
def buildSetString (commandList : List String) : String :=
  commandList.foldl (fun setString i => setString ++ "\n" ++ i) ""

/-- The lock request (main.go 330). -/
def lockRpc : String := "<lock-configuration/>"

/-- The load request (main.go 339). -/
def loadRpc (setString : String) : String :=
  "<load-configuration action='set' format='text'><configuration-set>" ++ setString
    ++ "</configuration-set></load-configuration>"

/-- The validate request (main.go 346). -/
def validateRpc : String := "<validate><source><candidate/></source></validate>"

/-- The compare request (main.go 355). -/
def diffRpc : String := "<get-configuration compare='rollback' rollback='0' format='text'/>"

/-- The discard request (main.go 372). -/
def discardRpc : String := "<discard-changes/>"

/-- The commit request (main.go 381). -/
def commitRpc (referenceData : String) : String :=
  "<commit><comment>" ++ referenceData ++ "</comment></commit>"

/-- The unlock request (main.go 392). -/
def unlockRpc : String := "<unlock-configuration/>"

/-- The question of the Confirming step (main.go 370). -/
def commitQuestion : String := "\nCommit changes to device? (y/n):"

/-- Source: the end of the configuration loop body (main.go 370-399): confirm,
commit or discard, unlock. -/
def configConfirm (env : Env) (inputData : cmdDataStruct) (d : String)
    (configLocked : Bool) : M Unit := do
  let confirmCommit ← ForceSelect env commitQuestion "y" "n"
  if confirmCommit = "n" then
    let r ← sessionExec env d discardRpc
    if r.err then
      emit (Event.print
        "Config changes could not be rolled back, please check the device and rollback manually.\n")
    emit (Event.print "\nConfig changes have been reverted\n")
  else if confirmCommit = "y" then
    let r ← sessionExec env d (commitRpc inputData.ReferenceData)
    if r.err then
      emit (Event.print
        "Config changes could not be committed, please check the device and rollback manually.\n")
    emit (Event.print "\nConfig changes commited\n")
  if configLocked then
    let r ← sessionExec env d unlockRpc
    if r.err then
      emit (Event.print "Config could not be unlocked, is there an existing session?\n")

/-- The warning printed when the compare request fails (main.go 358). -/
def diffWarning : String :=
  "Config changes could not be compared, please check the device manually.\n"

/-- Source: the start of the configuration loop body (main.go 310-368) for
device `d`: connect, lock, load, validate, show the diff. Returns
`configLocked`. -/
def configStage (env : Env) (inputData : cmdDataStruct) (d : String) : M Bool := do
  emit (Event.print ("\n\nConnecting to: " ++ d ++ "\n===========================\n"))
  let setString := buildSetString inputData.CommandList
  match ← dialSSH env (d ++ ":830") with
  | some err =>
    emit (Event.log ("Error connecting: " ++ err))
    stop Halt.fatal
  | none =>
    let lock ← sessionExec env d lockRpc
    if lock.err then
      emit (Event.print
        "There was a problem locking the configuration, is someone/thing already editing?\n")
      emit (Event.print "continuing without locking config\n")
    let configLocked := !lock.err
    let load ← sessionExec env d (loadRpc setString)
    if load.err then stop Halt.panicked
    else
      let validate ← sessionExec env d validateRpc
      if validate.err then
        emit (Event.print
          "There was a problem validating the candidate config and commiting the change may fail.\n")
      emit (Event.print "Config Diff:\n==========================================\n")
      let diff ← sessionExec env d diffRpc
      if diff.err then
        emit (Event.print diffWarning)
      match diff.reply with
      | none => stop Halt.panicked
      | some data =>
        match env.unmarshal data with
        | .error err =>
          emit (Event.log err)
          stop Halt.fatal
        | .ok configurationOutput =>
          emit (Event.print (colorLine configurationOutput))
          pure configLocked

/-- Source: the body of the configuration loop (main.go 310-399) for device `d`. -/
def configDevice (env : Env) (inputData : cmdDataStruct) (d : String) : M Unit := do
  let configLocked ← configStage env inputData d
  configConfirm env inputData d configLocked

/-- Source: the configuration loop over the devices (main.go 309-401). -/
def configLoop (env : Env) (inputData : cmdDataStruct) : List String → M Unit
  | [] => pure ()
  | d :: rest => do
    configDevice env inputData d
    configLoop env inputData rest

/-- The request sent for operational command `c` (main.go 440). -/
def commandRpc (c : String) : String :=
  "<command format=\"ascii\">" ++ c ++ "</command>"

/-- The output file of device `d` (main.go 413, 450). -/
def outputFileName (inputData : cmdDataStruct) (d : String) : String :=
  inputData.ReferenceData ++ "/" ++ Replace d "." "_" ++ ".txt"

/-- The separator line written between a command and its output (main.go 457). -/
def separator : String := "=============================================="

/-- Source: the loop over the commands of one device (main.go 439-466). -/
def opCommandLoop (env : Env) (inputData : cmdDataStruct) (saveOuputs : Bool) (d : String) :
    List String → M Unit
  | [] => pure ()
  | c :: rest => do
    let res ← sessionExec env d (commandRpc c)
    if res.err then
      emit (Event.print
        ("There was a problem executing the command, please check your syntax:\n\t" ++ c ++ "\n"))
      opCommandLoop env inputData saveOuputs d rest
    else
      match res.reply with
      | none => stop Halt.panicked
      | some data =>
        let cmdOutput := commandOutputStripper data
        if saveOuputs then
          let outputFile := outputFileName inputData d
          match ← fileCall env (Event.openAppend outputFile) with
          | some _ =>
            emit (Event.print ("Problems opening output file: " ++ outputFile ++ "\n"))
            opCommandLoop env inputData saveOuputs d rest
          | none =>
            match ← fileCall env (Event.write outputFile (c ++ "\n" ++ separator ++ cmdOutput)) with
            | some err =>
              emit (Event.print "problems writing file\n")
              emit (Event.print (err ++ "\n"))
              emit (Event.print (colorLine cmdOutput))
              opCommandLoop env inputData saveOuputs d rest
            | none =>
              emit (Event.print (colorLine cmdOutput))
              opCommandLoop env inputData saveOuputs d rest
        else do
          emit (Event.print (colorLine cmdOutput))
          opCommandLoop env inputData saveOuputs d rest

/-- Source: the part of the operational loop body after the output file has
been created (main.go 420-469). -/
def opSession (env : Env) (inputData : cmdDataStruct) (saveOuputs : Bool) (d : String) :
    M Unit := do
  emit (Event.print ("\n\nConnecting to: " ++ d ++ "\n===========================\n"))
  match ← dialSSH env (d ++ ":830") with
  | some err =>
    emit (Event.log ("Error connecting: " ++ err))
    stop Halt.fatal
  | none =>
    opCommandLoop env inputData saveOuputs d inputData.CommandList
    if saveOuputs then
      emit (Event.print
        ("Outputs written to: " ++ inputData.ReferenceData ++ "/" ++ Replace d "." "_" ++ "\n"))

/-- Source: the creation of the output file of device `d` (main.go 412-419).
Returns `false` when the file cannot be created and the device is skipped
(`continue`). -/
def createOutputFile (env : Env) (inputData : cmdDataStruct) (saveOuputs : Bool) (d : String) :
    M Bool := do
  if saveOuputs then
    if ← FileExistsAndIsNotADirectory env then pure true
    else
      let outputFile := outputFileName inputData d
      match ← fileCall env (Event.create outputFile) with
      | some _ =>
        emit (Event.print ("Problems opening output file: " ++ outputFile ++ "\n"))
        pure false
      | none => pure true
  else pure true

/-- Source: the body of the operational loop (main.go 412-469) for device `d`. -/
def opDevice (env : Env) (inputData : cmdDataStruct) (saveOuputs : Bool) (d : String) :
    M Unit := do
  if ← createOutputFile env inputData saveOuputs d then
    opSession env inputData saveOuputs d

/-- Source: the operational loop over the devices (main.go 411-471). -/
def opLoop (env : Env) (inputData : cmdDataStruct) (saveOuputs : Bool) : List String → M Unit
  | [] => pure ()
  | d :: rest => do
    opDevice env inputData saveOuputs d
    opLoop env inputData saveOuputs rest

/-- Source: the creation of the output directory (main.go 404-409). -/
def opMkdir (env : Env) (inputData : cmdDataStruct) (saveOuputs : Bool) : M Unit := do
  if saveOuputs then
    if ← FileExistsAndIsADirectory env then pure ()
    else
      match ← fileCall env (Event.mkdir inputData.ReferenceData) with
      | some err =>
        emit (Event.log err)
        stop Halt.fatal
      | none => pure ()

/-- Source: the two workflows of `main` (main.go 307-472), entered once the
commands are classified, the user agreed and the credentials are read. -/
def sendAll (env : Env) (inputData : cmdDataStruct) (saveOuputs : Bool)
    (scriptMode : String) : M Unit := do
  if scriptMode = "c" then
    emit (Event.print "Proceding to load configs\n")
    configLoop env inputData inputData.DeviceIPs
  else if scriptMode = "o" then
    emit (Event.print "Proceding to send operational commands\n")
    opMkdir env inputData saveOuputs
    opLoop env inputData saveOuputs inputData.DeviceIPs

/-- Source: the summary of the work order printed before the question
(main.go 282-296). -/
def printSummary (inputData : cmdDataStruct) (scriptMode : String) : M Unit := do
  if scriptMode = "c" then
    emit (Event.print "WE'RE CONFIGURING\n")
  emit (Event.print ("Description:\n=====================\n" ++ inputData.Description ++ "\n\n"))
  emit (Event.print ("Reference:\n=====================\n" ++ inputData.ReferenceData ++ "\n\n"))
  emit (Event.print "Devices:\n=====================\n")
  printEach (fun i => "\t" ++ i ++ "\n") inputData.DeviceIPs
  emit (Event.print "Commands:\n=====================\n")
  printEach (fun i => "\t" ++ i ++ "\n") inputData.CommandList
  emit (Event.print "\n\n")

/-- Source: `main` from the classifier up to the credentials (main.go 255-305):
the run ends here when a command is rejected or the user answers `n`. -/
def beforeSending (env : Env) (inputData : cmdDataStruct) (scriptMode : String) : M Unit := do
  let badCmds ← classifyLoop scriptMode inputData.CommandList []
  if badCmds.length != 0 then
    emit (Event.print
      ("Please check the following commands for allowed syntax: \n"
        ++ "==========================================================\n"))
    printEach (fun i => i ++ "\n") badCmds
    stop Halt.exit0
  else
    printSummary inputData scriptMode
    let continueAction ← ForceSelect env "Continue with sending of commands? (y/n)" "y" "n"
    if continueAction = "n" then
      emit (Event.print "Quitting program, no commands or config items were sent.\n")
      stop Halt.exit0
    else
      let _ ← credentials env
      pure ()

/-- Source: `main` from the classifier on (main.go 255-473), for a decoded
work order `inputData`, the flag `-s` and the mode `scriptMode`. -/
def mainAfterMode (env : Env) (inputData : cmdDataStruct) (saveOuputs : Bool)
    (scriptMode : String) : M Unit := do
  beforeSending env inputData scriptMode
  sendAll env inputData saveOuputs scriptMode

/-- Source: the choice of the mode (main.go 248-253) followed by the rest of
`main`; `operationSelect` is the validated flag `-m`. -/
def mainFromMode (env : Env) (inputData : cmdDataStruct) (saveOuputs : Bool)
    (operationSelect : String) : M Unit := do
  let scriptMode ←
    if operationSelect = "s" then
      ForceSelect env "Please choose from config mode (c) or operational mode (o) (c/o): " "c" "o"
    else pure operationSelect
  mainAfterMode env inputData saveOuputs scriptMode

/-- The state at the start of a run that will read `stdin`. -/
def St.start (stdin : List String) : St :=
  { stdin := stdin, dials := 0, execs := 0, stats := 0, fileOps := 0, trace := [] }

/-! ## Projections of a trace -/

/-- The addresses dialled, in order. -/
def dialsOf : List Event → List String
  | [] => []
  | Event.dial a :: rest => a :: dialsOf rest
  | _ :: rest => dialsOf rest

/-- The requests sent to devices, in order. -/
def execsOf : List Event → List String
  | [] => []
  | Event.exec _ rpc :: rest => rpc :: execsOf rest
  | _ :: rest => execsOf rest

/-- The text written to the file at `path`, in order. -/
def writtenTo (path : String) : List Event → String
  | [] => ""
  | Event.write p text :: rest => if p = path then text ++ writtenTo path rest else writtenTo path rest
  | _ :: rest => writtenTo path rest

/-- The questions answered, with the answers, in order. -/
def answersOf : List Event → List (String × String)
  | [] => []
  | Event.answer q a :: rest => (q, a) :: answersOf rest
  | _ :: rest => answersOf rest

/-- The console output, in order. -/
def printsOf : List Event → List String
  | [] => []
  | Event.print t :: rest => t :: printsOf rest
  | _ :: rest => printsOf rest

/-- The second character of a string, which tells the requests apart. -/
def secondChar (s : String) : Option Char := s.data.get? 1

/-- The questions put to the user, in order. -/
def asksOf : List Event → List String
  | [] => []
  | Event.ask q :: rest => q :: asksOf rest
  | _ :: rest => asksOf rest

/-! ## The classifier as the specification words it -/

/-- The first whitespace-delimited token of a command, as the specification
words the classifier (what Go `strings.Fields(s)[0]` gives): leading white
space is skipped and the token ends at the next white-space character;
`none` when the command has no token. -/
def firstToken (s : String) : Option String :=
  match (s.data.dropWhile isSpace).takeWhile (fun c => !isSpace c) with
  | [] => none
  | t => some ⟨t⟩

/-- Acceptance as the specification words it: the first whitespace-delimited
token is an allowed verb of the mode. -/
def specAccepts (scriptMode : String) (s : String) : Bool :=
  match firstToken s with
  | none => false
  | some t =>
    if scriptMode = "c" then decide (t ∈ validConfigPrefix)
    else if scriptMode = "o" then decide (t ∈ validOpPOrefix)
    else false

/-! ## Example inputs -/

/-- Lower-casing of the ASCII letters, standing for `strings.ToLower` in examples. -/
def asciiLower (s : String) : String := s.map Char.toLower

/-- A decoder for examples: an empty document is an error (`EOF`, as with
`encoding/xml`), any other document is taken to hold its own text. -/
def sampleUnmarshal (data : String) : Except String String :=
  if data = "" then Except.error "EOF" else Except.ok data

/-- An example world: `dial` and `exec` as given, the output directory exists
and every file operation succeeds. -/
def sampleEnv (dial : Nat → Option String) (exec : Nat → ExecResult) : Env :=
  { toLower := asciiLower, unmarshal := sampleUnmarshal, terminal := true,
    passwordOf := TrimSpace,
    dial := dial, exec := exec, stat := fun _ => StatResult.dir, fileOp := fun _ => none }

/-- An example work order of configuration commands for three devices. -/
def sampleConfigOrder : cmdDataStruct :=
  { Description := "set the host name", ReferenceData := "run-42",
    DeviceIPs := ["10.0.0.1", "10.0.0.2", "10.0.0.3"],
    CommandList := ["set system host-name r1"] }

/-- An example work order of operational commands for three devices. -/
def sampleOpOrder : cmdDataStruct :=
  { Description := "collect facts", ReferenceData := "run-42",
    DeviceIPs := ["10.0.0.1", "10.0.0.2", "10.0.0.3"],
    CommandList := ["show version", "show interfaces"] }

/-- Every request succeeds with the reply `data`. -/
def replyAlways (data : String) : Nat → ExecResult :=
  fun _ => { reply := some data, err := false }

/-- Every request succeeds except the second one of the run (the load of the first device). -/
def loadFails : Nat → ExecResult :=
  fun n => if n = 1 then { reply := none, err := true } else { reply := some "<ok/>", err := false }

/-- The lock request of the first device fails, every other request succeeds. -/
def lockFails : Nat → ExecResult :=
  fun n => if n = 0 then { reply := none, err := true }
    else { reply := some "<configuration-information/>", err := false }

/-! ## Notions used to state the properties -/

/-- The text the operational workflow writes for the commands `cmds` when the
k-th request of the device is answered with the raw reply `out k`: one block
per command, the command, a newline, the separator and the stripped output. -/
def blocksFrom (out : Nat → String) : Nat → List String → String
  | _, [] => ""
  | k, c :: rest =>
    (c ++ "\n" ++ separator ++ commandOutputStripper (out k)) ++ blocksFrom out (k + 1) rest

/-- A piece of the program that opens no session: it leaves the count of
connections and the addresses dialled as they were. -/
def Quiet {α : Type} (m : M α) : Prop :=
  ∀ s, (m s).state.dials = s.dials ∧ dialsOf (m s).trace = dialsOf s.trace

/-- What holds of the connections made while a piece of the program runs from
state `s` to outcome `o`: they go, in order, to addresses among `addrs`, and
a connection that fails is the last one of the run, which then ends in
`log.Fatalf`. -/
def DialsWithin {α : Type} (env : Env) (s : St) (o : Outcome α) (addrs : List String) : Prop :=
  s.dials ≤ o.state.dials
    ∧ (∃ dialled, dialsOf o.trace = dialsOf s.trace ++ dialled
        ∧ dialled.Sublist addrs
        ∧ dialled.length = o.state.dials - s.dials)
    ∧ (∀ n, s.dials ≤ n → n < o.state.dials → (env.dial n).isSome = true →
        n + 1 = o.state.dials ∧ o.halted = some Halt.fatal)

/-! ## Lemmas and theorems -/

/-! ### The classifier (C1, C2) -/

theorem splitChars_head (sep : Char) (l : List Char) :
    ∃ fs, splitChars sep l = l.takeWhile (fun c => c != sep) :: fs := by
  induction l with
  | nil => exact ⟨[], rfl⟩
  | cons c cs ih =>
    obtain ⟨fs, hfs⟩ := ih
    by_cases h : c = sep
    · exact ⟨splitChars sep cs, by simp [splitChars, h]⟩
    · exact ⟨fs, by simp [splitChars, h, hfs]⟩

theorem firstField_eq (i : String) :
    firstField i = ⟨i.data.takeWhile (fun c => c != ' ')⟩ := by
  obtain ⟨fs, hfs⟩ := splitChars_head ' ' i.data
  simp [firstField, Split, hfs]

theorem StringSliceContains_iff (l : List String) (v : String) :
    StringSliceContains l v = true ↔ v ∈ l := by
  induction l with
  | nil => simp [StringSliceContains]
  | cons a rest ih =>
    by_cases h : a = v
    · simp [StringSliceContains, h]
    · have h2 : ¬ v = a := fun e => h e.symm
      simp [StringSliceContains, h, h2, ih]

theorem takeWhile_ne_eq_iff (sep : Char) (v l : List Char) (hv : sep ∉ v) :
    l.takeWhile (fun c => c != sep) = v ↔ (l = v ∨ ∃ rest, l = v ++ sep :: rest) := by
  constructor
  · intro h
    have hsplit := List.takeWhile_append_dropWhile (fun c => c != sep) l
    rw [h] at hsplit
    cases hd : l.dropWhile (fun c => c != sep) with
    | nil => left; rw [hd] at hsplit; simpa using hsplit.symm
    | cons a rest =>
      right
      have ha : (fun c => c != sep) a = false := by
        have := List.head_dropWhile_not (fun c => c != sep) l (by rw [hd]; simp)
        simpa [hd] using this
      have : a = sep := by simpa using ha
      subst this
      exact ⟨rest, by rw [hd] at hsplit; exact hsplit.symm⟩
  · rintro (h | ⟨rest, h⟩)
    · subst h
      rw [List.takeWhile_eq_self_iff]
      intro x hx
      have : x ≠ sep := fun e => hv (e ▸ hx)
      simpa using this
    · subst h
      rw [List.takeWhile_append_of_pos]
      · simp
      · intro x hx
        have : x ≠ sep := fun e => hv (e ▸ hx)
        simpa using this

theorem firstField_eq_iff (s v : String) (hv : ' ' ∉ v.data) :
    firstField s = v ↔ (s = v ∨ ∃ rest : String, s = v ++ " " ++ rest) := by
  rw [firstField_eq]
  have key := takeWhile_ne_eq_iff ' ' v.data s.data hv
  constructor
  · intro h
    have h1 : s.data.takeWhile (fun c => c != ' ') = v.data := by rw [← h]
    rcases key.mp h1 with h2 | ⟨rest, h2⟩
    · exact Or.inl (String.ext h2)
    · exact Or.inr ⟨⟨rest⟩, String.ext (by simp [h2])⟩
  · intro h
    apply String.ext
    apply key.mpr
    rcases h with h | ⟨rest, h⟩
    · exact Or.inl (by rw [h])
    · exact Or.inr ⟨rest.data, by rw [h]; simp⟩

/-- C1, counterexample. The command `set<TAB>system host-name r1` has `set` as its
first whitespace-delimited token and is rejected in mode `c`; the command
` show version`, which begins with a space, has `show` as its first token and
is rejected in mode `o`. -/
theorem classifier_whitespace_counterexample :
    specAccepts "c" "set\tsystem host-name r1" = true
      ∧ accepts "c" "set\tsystem host-name r1" = false
      ∧ specAccepts "o" " show version" = true
      ∧ accepts "o" " show version" = false := by
  decide

theorem classifier_accepts_core (s : String) :
    (accepts "c" s = true ↔
        ∃ v ∈ validConfigPrefix, s = v ∨ ∃ rest : String, s = v ++ " " ++ rest)
      ∧ (accepts "o" s = true ↔ s = "show" ∨ ∃ rest : String, s = "show " ++ rest)
      ∧ ((∀ c ∈ s.data, isSpace c = true) →
          accepts "c" s = false ∧ accepts "o" s = false) := by
  have hc : accepts "c" s = true ↔
      ∃ v ∈ validConfigPrefix, s = v ∨ ∃ rest : String, s = v ++ " " ++ rest := by
    have e : accepts "c" s = StringSliceContains validConfigPrefix (firstField s) := by
      simp [accepts, rejects]
    rw [e, StringSliceContains_iff]
    constructor
    · intro h
      refine ⟨firstField s, h, ?_⟩
      have hv : ' ' ∉ (firstField s).data := by
        simp only [validConfigPrefix, List.mem_cons, List.mem_singleton, List.mem_nil_iff,
          or_false] at h
        rcases h with h | h | h | h <;> rw [h] <;> decide
      exact (firstField_eq_iff s (firstField s) hv).mp rfl
    · rintro ⟨v, hv, h⟩
      have hsp : ' ' ∉ v.data := by
        simp only [validConfigPrefix, List.mem_cons, List.mem_singleton, List.mem_nil_iff,
          or_false] at hv
        rcases hv with h | h | h | h <;> rw [h] <;> decide
      rw [(firstField_eq_iff s v hsp).mpr h]
      exact hv
  have ho : accepts "o" s = true ↔ s = "show" ∨ ∃ rest : String, s = "show " ++ rest := by
    have e : accepts "o" s = StringSliceContains validOpPOrefix (firstField s) := by
      simp [accepts, rejects]
    rw [e, StringSliceContains_iff]
    have hsp : ' ' ∉ ("show" : String).data := by decide
    have k := firstField_eq_iff s "show" hsp
    simp only [validOpPOrefix, List.mem_singleton]
    rw [k]
    rfl
  refine ⟨hc, ho, ?_⟩
  intro hblank
  constructor
  · cases hacc : accepts "c" s with
    | false => rfl
    | true =>
      exfalso
      obtain ⟨v, hv, h⟩ := hc.mp hacc
      simp only [validConfigPrefix, List.mem_cons, List.mem_singleton, List.mem_nil_iff,
        or_false] at hv
      have hmem : ∀ c ∈ v.data, c ∈ s.data := by
        rcases h with h | ⟨rest, h⟩ <;> intro c hcv <;> rw [h] <;> simp [hcv]
      rcases hv with h1 | h1 | h1 | h1 <;> subst h1
      · exact absurd (hblank 's' (hmem 's' (by decide))) (by decide)
      · exact absurd (hblank 'd' (hmem 'd' (by decide))) (by decide)
      · exact absurd (hblank 'a' (hmem 'a' (by decide))) (by decide)
      · exact absurd (hblank 'd' (hmem 'd' (by decide))) (by decide)
  · cases hacc : accepts "o" s with
    | false => rfl
    | true =>
      exfalso
      have hmem : 's' ∈ s.data := by
        rcases ho.mp hacc with h | ⟨rest, h⟩ <;> rw [h] <;> simp
      exact absurd (hblank 's' hmem) (by decide)

theorem firstField_leading_space (rest : String) : firstField (" " ++ rest) = "" := by
  rw [firstField_eq]
  apply String.ext
  simp [String.data_append]

theorem firstField_tab (v rest : String) (hv : ' ' ∉ v.data) :
    '\t' ∈ (firstField (v ++ "\t" ++ rest)).data := by
  rw [firstField_eq]
  have hd : (v ++ "\t" ++ rest).data = v.data ++ ('\t' :: rest.data) := by
    simp [String.data_append]
  simp only [hd]
  rw [List.takeWhile_append_of_pos]
  · simp [List.takeWhile]
  · intro x hx
    have : x ≠ ' ' := fun e => hv (e ▸ hx)
    simpa using this

theorem accepts_c_eq (s : String) :
    accepts "c" s = StringSliceContains validConfigPrefix (firstField s) := by
  simp [accepts, rejects]

theorem accepts_o_eq (s : String) :
    accepts "o" s = StringSliceContains validOpPOrefix (firstField s) := by
  simp [accepts, rejects]

theorem classifier_rejects_other_separators :
    (∀ rest : String, accepts "c" (" " ++ rest) = false ∧ accepts "o" (" " ++ rest) = false)
      ∧ (∀ v ∈ validConfigPrefix, ∀ rest : String, accepts "c" (v ++ "\t" ++ rest) = false)
      ∧ (∀ rest : String, accepts "o" ("show" ++ "\t" ++ rest) = false) := by
  refine ⟨fun rest => ?_, fun v hv rest => ?_, fun rest => ?_⟩
  · rw [accepts_c_eq, accepts_o_eq, firstField_leading_space]
    decide
  · have hsp : ' ' ∉ v.data := by
      simp only [validConfigPrefix, List.mem_cons, List.mem_singleton, List.mem_nil_iff,
        or_false] at hv
      rcases hv with h | h | h | h <;> rw [h] <;> decide
    have htab := firstField_tab v rest hsp
    rw [accepts_c_eq]
    cases hc : StringSliceContains validConfigPrefix (firstField (v ++ "\t" ++ rest)) with
    | false => rfl
    | true =>
      exfalso
      have hm := (StringSliceContains_iff _ _).mp hc
      simp only [validConfigPrefix, List.mem_cons, List.mem_singleton, List.mem_nil_iff,
        or_false] at hm
      rcases hm with h | h | h | h <;> rw [h] at htab <;> revert htab <;> decide
  · have htab := firstField_tab "show" rest (by decide)
    rw [accepts_o_eq]
    cases hc : StringSliceContains validOpPOrefix (firstField ("show" ++ "\t" ++ rest)) with
    | false => rfl
    | true =>
      exfalso
      have hm := (StringSliceContains_iff _ _).mp hc
      simp only [validOpPOrefix, List.mem_singleton] at hm
      rw [hm] at htab
      revert htab
      decide

/-- C1, amended. The verb is the text before the first space character: a command
is accepted in mode `c` exactly when it is one of `set`, `delete`, `activate`,
`deactivate`, alone or followed by a space and any text, and in mode `o`
exactly when it is `show`, alone or followed by a space and any text. The
match is exact and case-sensitive; a command made of white space only (the
empty command included) is rejected, and so are a command that begins with a
space and a command whose verb is followed by a tab. -/
theorem classifier_accepts_iff (s : String) :
    (accepts "c" s = true ↔
        ∃ v ∈ validConfigPrefix, s = v ∨ ∃ rest : String, s = v ++ " " ++ rest)
      ∧ (accepts "o" s = true ↔ s = "show" ∨ ∃ rest : String, s = "show " ++ rest)
      ∧ ((∀ c ∈ s.data, isSpace c = true) →
          accepts "c" s = false ∧ accepts "o" s = false)
      ∧ (∀ rest : String, accepts "c" (" " ++ rest) = false ∧ accepts "o" (" " ++ rest) = false)
      ∧ (∀ v ∈ validConfigPrefix, ∀ rest : String, accepts "c" (v ++ "\t" ++ rest) = false)
      ∧ (∀ rest : String, accepts "o" ("show" ++ "\t" ++ rest) = false) :=
  ⟨(classifier_accepts_core s).1, (classifier_accepts_core s).2.1,
    (classifier_accepts_core s).2.2, classifier_rejects_other_separators⟩

theorem classifyLoop_eq (scriptMode : String) (hm : scriptMode = "c" ∨ scriptMode = "o")
    (cmds acc : List String) (st : St) :
    classifyLoop scriptMode cmds acc st
      = Outcome.ok (acc ++ cmds.filter (fun i => rejects scriptMode i)) st := by
  induction cmds generalizing acc with
  | nil => simp [classifyLoop, pure]
  | cons i rest ih =>
    rcases hm with hm | hm <;> subst hm
    · by_cases h : StringSliceContains validConfigPrefix (firstField i) = true
      · simp [classifyLoop, rejects, h, ih]
      · simp [classifyLoop, rejects, h, ih]
    · by_cases h : StringSliceContains validOpPOrefix (firstField i) = true
      · simp [classifyLoop, rejects, h, ih]
      · simp [classifyLoop, rejects, h, ih]

theorem accepts_iff_verb (scriptMode : String) (hm : scriptMode = "c" ∨ scriptMode = "o")
    (i : String) :
    accepts scriptMode i = true ↔
      ∃ v ∈ (if scriptMode = "c" then ["set", "delete", "activate", "deactivate"]
          else ["show"]),
        i = v ∨ ∃ rest : String, i = v ++ " " ++ rest := by
  rcases hm with hm | hm <;> subst hm
  · rw [if_pos rfl]
    exact (classifier_accepts_core i).1
  · rw [if_neg (by decide)]
    rw [(classifier_accepts_core i).2.1]
    constructor
    · rintro (h | ⟨rest, h⟩)
      · exact ⟨"show", by simp, Or.inl h⟩
      · exact ⟨"show", by simp, Or.inr ⟨rest, by rw [h]; rfl⟩⟩
    · rintro ⟨v, hv, h⟩
      have hv2 : v = "show" := by simpa using hv
      subst hv2
      rcases h with h | ⟨rest, h⟩
      · exact Or.inl h
      · exact Or.inr ⟨rest, by rw [h]; rfl⟩

/-- C2. In mode `c` or `o` the classifier loop returns, without any other effect,
the commands of the list that are not accepted, filtered in the original order.
A command is accepted exactly when it is an allowed verb of the mode (`set`,
`delete`, `activate`, `deactivate` in mode `c`, `show` in mode `o`), alone or
followed by a space and any text; so a command is in `badCmds` exactly when it
is in the list and is not of that form, as often as it occurs in the list, and
`badCmds` is empty exactly when every command is accepted. -/
theorem badCmds_is_rejected_sublist (scriptMode : String)
    (hm : scriptMode = "c" ∨ scriptMode = "o") (cmds : List String) (st : St) :
    classifyLoop scriptMode cmds [] st
        = Outcome.ok (cmds.filter (fun i => !accepts scriptMode i)) st
      ∧ (∀ i, accepts scriptMode i = true ↔
          ∃ v ∈ (if scriptMode = "c" then ["set", "delete", "activate", "deactivate"]
              else ["show"]),
            i = v ∨ ∃ rest : String, i = v ++ " " ++ rest)
      ∧ (∀ i, i ∈ cmds.filter (fun i => !accepts scriptMode i)
            ↔ i ∈ cmds ∧ ¬ ∃ v ∈ (if scriptMode = "c" then
                  ["set", "delete", "activate", "deactivate"] else ["show"]),
                i = v ∨ ∃ rest : String, i = v ++ " " ++ rest)
      ∧ (∀ i, i ∈ cmds.filter (fun i => !accepts scriptMode i)
            ↔ i ∈ cmds ∧ accepts scriptMode i = false)
      ∧ (∀ i, (cmds.filter (fun i => !accepts scriptMode i)).count i
            = if accepts scriptMode i then 0 else cmds.count i)
      ∧ (cmds.filter (fun i => !accepts scriptMode i) = []
            ↔ ∀ i ∈ cmds, accepts scriptMode i = true) := by
  have hmem : ∀ i, i ∈ cmds.filter (fun i => !accepts scriptMode i)
      ↔ i ∈ cmds ∧ accepts scriptMode i = false := by
    intro i
    simp [List.mem_filter]
  refine ⟨?_, accepts_iff_verb scriptMode hm, ?_, hmem, ?_, ?_⟩
  · rw [classifyLoop_eq scriptMode hm]
    simp [accepts]
  · intro i
    rw [hmem i, ← accepts_iff_verb scriptMode hm i]
    simp
  · intro i
    cases h : accepts scriptMode i with
    | false =>
      simp only [Bool.false_eq_true, if_false]
      exact List.count_filter (by simp [h])
    | true =>
      simp only [if_true]
      exact List.count_eq_zero.mpr (by simp [List.mem_filter, h])
  · simp [List.filter_eq_nil_iff]

/-- C2, witness: a mixed list in mode `c`; every rejected entry is reported, in
order, the repeated one twice. -/
theorem badCmds_is_rejected_sublist_witness :
    classifyLoop "c" ["set system host-name r1", "show version", "delete interfaces ge-0/0/0",
        "Set x", "show version"] [] (St.start [])
      = Outcome.ok ["show version", "Set x", "show version"] (St.start []) := by
  have h := (badCmds_is_rejected_sublist "c" (Or.inl rfl)
    ["set system host-name r1", "show version", "delete interfaces ge-0/0/0", "Set x",
      "show version"] (St.start [])).1
  have e : (["set system host-name r1", "show version", "delete interfaces ge-0/0/0", "Set x",
      "show version"] : List String).filter (fun i => !accepts "c" i)
      = ["show version", "Set x", "show version"] := by decide!
  rw [e] at h
  exact h

/-! ### The output stripper (C10) -/

theorem replaceChars_skip (old new : List Char) (a l : List Char) :
    replaceChars old new a.length (a ++ l) = replaceChars old new 0 l := by
  induction a with
  | nil => rfl
  | cons c cs ih => simpa [replaceChars] using ih

theorem isPrefix_append_cases (P t W : List Char) (h : P <+: t ++ W) :
    P <+: t ∨ (t.length < P.length ∧ P.drop t.length <+: W) := by
  by_cases hlen : P.length ≤ t.length
  · exact Or.inl (List.prefix_of_prefix_length_le h (List.prefix_append t W) hlen)
  · right
    have hlt : t.length < P.length := Nat.lt_of_not_le hlen
    refine ⟨hlt, ?_⟩
    have htP : t <+: P :=
      List.prefix_of_prefix_length_le (List.prefix_append t W) h (Nat.le_of_lt hlt)
    obtain ⟨r, hr⟩ := htP
    subst hr
    have : r <+: W := (List.prefix_append_right_inj t).mp h
    simpa using this

theorem replaceChars_append_of_no_match (P new W : List Char)
    (hW : ∀ k, 0 < k → k < P.length → ¬ P.drop k <+: W)
    (b : List Char) (hb : ¬ P <:+: b) :
    replaceChars P new 0 (b ++ W) = b ++ replaceChars P new 0 W := by
  induction b with
  | nil => rfl
  | cons c cs ih =>
    have hcs : ¬ P <:+: cs := fun h => hb (h.trans (List.suffix_cons c cs).isInfix)
    have hpre : P.isPrefixOf (c :: (cs ++ W)) = false := by
      cases hp : P.isPrefixOf (c :: (cs ++ W)) with
      | false => rfl
      | true =>
        exfalso
        have hp2 : P <+: (c :: cs) ++ W := by
          have := List.isPrefixOf_iff_prefix.mp hp
          simpa using this
        rcases isPrefix_append_cases P (c :: cs) W hp2 with h | ⟨hlt, h⟩
        · exact hb h.isInfix
        · exact hW (c :: cs).length (by simp) hlt h
    simp [replaceChars, hpre, ih hcs]

/-- C10. For a body that contains neither `<output>` nor `</output>`, stripping the
wrapped body gives the body, and stripping the body gives the body. -/
theorem commandOutputStripper_unwraps (body : String)
    (h1 : ¬ ("<output>" : String).data <:+: body.data)
    (h2 : ¬ ("</output>" : String).data <:+: body.data) :
    commandOutputStripper ("<output>" ++ body ++ "</output>") = body
      ∧ commandOutputStripper body = body := by
  have hW11 : ∀ k, 0 < k → k < ("<output>" : String).data.length →
      ¬ ("<output>" : String).data.drop k <+: ("</output>" : String).data := by
    intro k h0 hk
    have hk8 : k < 8 := hk
    interval_cases k <;> decide
  have hW22 : ∀ k, 0 < k → k < ("</output>" : String).data.length →
      ¬ ("</output>" : String).data.drop k <+: ("</output>" : String).data := by
    intro k h0 hk
    have hk9 : k < 9 := hk
    interval_cases k <;> decide
  have hW1n : ∀ k, 0 < k → k < ("<output>" : String).data.length →
      ¬ ("<output>" : String).data.drop k <+: ([] : List Char) := by
    intro k h0 hk
    have hk8 : k < 8 := hk
    interval_cases k <;> decide
  have hW2n : ∀ k, 0 < k → k < ("</output>" : String).data.length →
      ¬ ("</output>" : String).data.drop k <+: ([] : List Char) := by
    intro k h0 hk
    have hk9 : k < 9 := hk
    interval_cases k <;> decide
  have p1 := replaceChars_append_of_no_match ("<output>" : String).data []
    ("</output>" : String).data hW11 body.data h1
  have p2 := replaceChars_append_of_no_match ("</output>" : String).data []
    ("</output>" : String).data hW22 body.data h2
  have q1 := replaceChars_append_of_no_match ("<output>" : String).data [] [] hW1n body.data h1
  have q2 := replaceChars_append_of_no_match ("</output>" : String).data [] [] hW2n body.data h2
  have e1 : replaceChars ("<output>" : String).data [] 0 ("</output>" : String).data
      = ("</output>" : String).data := by decide
  have e2 : replaceChars ("</output>" : String).data [] 0 ("</output>" : String).data = [] := by
    decide
  have skip := replaceChars_skip ("<output>" : String).data []
    ['o', 'u', 't', 'p', 'u', 't', '>'] (body.data ++ ("</output>" : String).data)
  constructor
  · apply String.ext
    have first : replaceChars ("<output>" : String).data [] 0
        (("<output>" : String) ++ body ++ "</output>").data
        = body.data ++ ("</output>" : String).data := by
      have hd : (("<output>" : String) ++ body ++ "</output>").data
          = '<' :: (['o', 'u', 't', 'p', 'u', 't', '>']
              ++ (body.data ++ ("</output>" : String).data)) := by
        simp [String.data_append]
      rw [hd]
      have hpre : ("<output>" : String).data.isPrefixOf
          ('<' :: (['o', 'u', 't', 'p', 'u', 't', '>']
            ++ (body.data ++ ("</output>" : String).data))) = true := by
        rw [List.isPrefixOf_iff_prefix]
        exact ⟨body.data ++ ("</output>" : String).data, by simp⟩
      rw [replaceChars, if_pos hpre]
      have hlen : ("<output>" : String).data.length - 1
          = ['o', 'u', 't', 'p', 'u', 't', '>'].length := by decide
      rw [hlen, skip, p1, e1]
      rfl
    simp only [commandOutputStripper, Replace]
    rw [first, p2, e2]
    simp
  · apply String.ext
    simp only [commandOutputStripper, Replace]
    have r1 : replaceChars ("<output>" : String).data ("" : String).data 0 body.data
        = body.data := by
      have := q1
      simpa [replaceChars] using this
    have r2 : replaceChars ("</output>" : String).data ("" : String).data 0 body.data
        = body.data := by
      have := q2
      simpa [replaceChars] using this
    rw [r1, r2]

/-- C10, witness: the body `\nHostname: r1\n`. -/
theorem commandOutputStripper_unwraps_witness :
    commandOutputStripper ("<output>" ++ "\nHostname: r1\n" ++ "</output>") = "\nHostname: r1\n"
      ∧ commandOutputStripper "\nHostname: r1\n" = "\nHostname: r1\n" :=
  commandOutputStripper_unwraps "\nHostname: r1\n" (by decide) (by decide)

/-! ### Running programs: rewriting rules and trace projections -/

@[simp] theorem bind_run {α β : Type} (m : M α) (f : α → M β) (s : St) :
    (m >>= f) s = match m s with
      | .ok a s1 => f a s1
      | .halt h s1 => .halt h s1 := rfl

@[simp] theorem pure_run {α : Type} (a : α) (s : St) : (pure a : M α) s = .ok a s := rfl

@[simp] theorem emit_run (e : Event) (s : St) :
    emit e s = .ok () { s with trace := s.trace ++ [e] } := rfl

@[simp] theorem stop_run {α : Type} (h : Halt) (s : St) : (stop h : M α) s = .halt h s := rfl

@[simp] theorem sessionExec_run (env : Env) (dev rpc : String) (s : St) :
    sessionExec env dev rpc s = .ok (env.exec s.execs)
      { s with execs := s.execs + 1, trace := s.trace ++ [Event.exec dev rpc] } := rfl

@[simp] theorem dialSSH_run (env : Env) (addr : String) (s : St) :
    dialSSH env addr s = .ok (env.dial s.dials)
      { s with dials := s.dials + 1, trace := s.trace ++ [Event.dial addr] } := rfl

@[simp] theorem execsOf_append (a b : List Event) : execsOf (a ++ b) = execsOf a ++ execsOf b := by
  induction a with
  | nil => rfl
  | cons e rest ih => cases e <;> simp [execsOf, ih]

@[simp] theorem answersOf_append (a b : List Event) :
    answersOf (a ++ b) = answersOf a ++ answersOf b := by
  induction a with
  | nil => rfl
  | cons e rest ih => cases e <;> simp [answersOf, ih]

@[simp] theorem dialsOf_append (a b : List Event) : dialsOf (a ++ b) = dialsOf a ++ dialsOf b := by
  induction a with
  | nil => rfl
  | cons e rest ih => cases e <;> simp [dialsOf, ih]

@[simp] theorem asksOf_append (a b : List Event) : asksOf (a ++ b) = asksOf a ++ asksOf b := by
  induction a with
  | nil => rfl
  | cons e rest ih => cases e <;> simp [asksOf, ih]

@[simp] theorem writtenTo_append (path : String) (a b : List Event) :
    writtenTo path (a ++ b) = writtenTo path a ++ writtenTo path b := by
  induction a with
  | nil => simp [writtenTo]
  | cons e rest ih =>
    cases e <;> simp [writtenTo, ih]
    split <;> simp [String.append_assoc]

@[simp] theorem execsOf_replicate_ask (n : Nat) (q : String) :
    execsOf (List.replicate n (Event.ask q)) = [] := by
  induction n with
  | zero => rfl
  | succ n ih => simp [List.replicate_succ, execsOf, ih]

@[simp] theorem dialsOf_replicate_ask (n : Nat) (q : String) :
    dialsOf (List.replicate n (Event.ask q)) = [] := by
  induction n with
  | zero => rfl
  | succ n ih => simp [List.replicate_succ, dialsOf, ih]

@[simp] theorem answersOf_replicate_ask (n : Nat) (q : String) :
    answersOf (List.replicate n (Event.ask q)) = [] := by
  induction n with
  | zero => rfl
  | succ n ih => simp [List.replicate_succ, answersOf, ih]

@[simp] theorem writtenTo_replicate_ask (path : String) (n : Nat) (q : String) :
    writtenTo path (List.replicate n (Event.ask q)) = "" := by
  induction n with
  | zero => rfl
  | succ n ih => simp [List.replicate_succ, writtenTo, ih]

/-! ### The configuration workflow of one device (C4, C5, C7, C8) -/

theorem forceSelectLoop_run (env : Env) (q a b : String) (lines : List String) (s : St) :
    (∃ ans n rest, (ans = a ∨ ans = b) ∧
        forceSelectLoop env q a b lines s = Outcome.ok ans
          { s with stdin := rest,
                   trace := s.trace ++ (List.replicate (n + 1) (Event.ask q)
                     ++ [Event.answer q ans]) })
      ∨ (∃ n, forceSelectLoop env q a b lines s = Outcome.halt Halt.hung
          { s with stdin := [], trace := s.trace ++ List.replicate (n + 1) (Event.ask q) }) := by
  induction lines generalizing s with
  | nil =>
    by_cases h : env.toLower (Trim (Trim (Trim "" "\n") "\n\r") "\r") = a
        ∨ env.toLower (Trim (Trim (Trim "" "\n") "\n\r") "\r") = b
    · left
      exact ⟨_, 0, [], h, by simp [forceSelectLoop, h]⟩
    · right
      exact ⟨0, by simp [forceSelectLoop, h]⟩
  | cons l rest ih =>
    by_cases h : env.toLower (Trim (Trim (Trim l "\n") "\n\r") "\r") = a
        ∨ env.toLower (Trim (Trim (Trim l "\n") "\n\r") "\r") = b
    · left
      exact ⟨_, 0, rest, h, by simp [forceSelectLoop, h]⟩
    · rcases ih { s with stdin := rest, trace := s.trace ++ [Event.ask q] } with
        ⟨ans, n, rest2, hans, hrun⟩ | ⟨n, hrun⟩
      · left
        refine ⟨ans, n + 1, rest2, hans, ?_⟩
        rw [forceSelectLoop]
        simp only [h, if_false]
        rw [hrun]
        simp [List.replicate_succ]
      · right
        refine ⟨n + 1, ?_⟩
        rw [forceSelectLoop]
        simp only [h, if_false]
        rw [hrun]
        simp [List.replicate_succ]

theorem ForceSelect_run (env : Env) (q a b : String) (s : St) :
    (∃ ans n rest, (ans = a ∨ ans = b) ∧
        ForceSelect env q a b s = Outcome.ok ans
          { s with stdin := rest,
                   trace := s.trace ++ (List.replicate (n + 1) (Event.ask q)
                     ++ [Event.answer q ans]) })
      ∨ (∃ n, ForceSelect env q a b s = Outcome.halt Halt.hung
          { s with stdin := [], trace := s.trace ++ List.replicate (n + 1) (Event.ask q) }) :=
  forceSelectLoop_run env q a b s.stdin s

@[simp] theorem asksOf_replicate_ask (n : Nat) (q : String) :
    asksOf (List.replicate n (Event.ask q)) = List.replicate n q := by
  induction n with
  | zero => rfl
  | succ n ih => simp [List.replicate_succ, asksOf, ih]

@[simp] theorem printsOf_append (a b : List Event) :
    printsOf (a ++ b) = printsOf a ++ printsOf b := by
  induction a with
  | nil => rfl
  | cons e rest ih => cases e <;> simp [printsOf, ih]

@[simp] theorem printsOf_replicate_ask (n : Nat) (q : String) :
    printsOf (List.replicate n (Event.ask q)) = [] := by
  induction n with
  | zero => rfl
  | succ n ih => simp [List.replicate_succ, printsOf, ih]

@[simp] theorem ite_run {α : Type} (c : Prop) [Decidable c] (m1 m2 : M α) (s : St) :
    (if c then m1 else m2) s = if c then m1 s else m2 s := by
  split <;> rfl

theorem configConfirm_run (env : Env) (inputData : cmdDataStruct) (d : String)
    (configLocked : Bool) (s : St) :
    (configConfirm env inputData d configLocked s).state.dials = s.dials
      ∧ dialsOf (configConfirm env inputData d configLocked s).trace = dialsOf s.trace
      ∧ (∃ n, asksOf (configConfirm env inputData d configLocked s).trace
            = asksOf s.trace ++ List.replicate (n + 1) commitQuestion)
      ∧ (((configConfirm env inputData d configLocked s).halted = some Halt.hung
            ∧ execsOf (configConfirm env inputData d configLocked s).trace = execsOf s.trace
            ∧ answersOf (configConfirm env inputData d configLocked s).trace = answersOf s.trace)
          ∨ ((configConfirm env inputData d configLocked s).halted = none
            ∧ ∃ ans op, ((ans = "n" ∧ op = discardRpc)
                  ∨ (ans = "y" ∧ op = commitRpc inputData.ReferenceData))
                ∧ answersOf (configConfirm env inputData d configLocked s).trace
                    = answersOf s.trace ++ [(commitQuestion, ans)]
                ∧ execsOf (configConfirm env inputData d configLocked s).trace
                    = execsOf s.trace ++ op :: (if configLocked then [unlockRpc] else []))) := by
  rcases ForceSelect_run env commitQuestion "y" "n" s with
    ⟨ans, n, rest, hans, hrun⟩ | ⟨n, hrun⟩
  · rcases hans with hans | hans <;> subst hans
    · refine ⟨?_, ?_, ⟨n, ?_⟩, Or.inr ⟨?_, "y", commitRpc inputData.ReferenceData,
        Or.inr ⟨rfl, rfl⟩, ?_, ?_⟩⟩ <;>
      (simp only [configConfirm, hrun, bind_run]
       simp
       split_ifs <;>
        simp_all [Outcome.trace, Outcome.state, Outcome.halted, dialsOf, asksOf, answersOf,
          execsOf, List.replicate_succ])
    · refine ⟨?_, ?_, ⟨n, ?_⟩, Or.inr ⟨?_, "n", discardRpc,
        Or.inl ⟨rfl, rfl⟩, ?_, ?_⟩⟩ <;>
      (simp only [configConfirm, hrun, bind_run]
       simp
       split_ifs <;>
        simp_all [Outcome.trace, Outcome.state, Outcome.halted, dialsOf, asksOf, answersOf,
          execsOf, List.replicate_succ])
  · refine ⟨?_, ?_, ⟨n, ?_⟩, Or.inl ⟨?_, ?_, ?_⟩⟩ <;>
      simp [configConfirm, hrun, Outcome.trace, Outcome.state, Outcome.halted]

set_option maxHeartbeats 1000000 in
theorem configStage_run (env : Env) (inputData : cmdDataStruct) (d : String) (s : St) :
    (configStage env inputData d s).state.dials = s.dials + 1
      ∧ dialsOf (configStage env inputData d s).trace = dialsOf s.trace ++ [d ++ ":830"]
      ∧ asksOf (configStage env inputData d s).trace = asksOf s.trace
      ∧ answersOf (configStage env inputData d s).trace = answersOf s.trace
      ∧ (match env.dial s.dials with
        | some _ => (configStage env inputData d s).halted = some Halt.fatal
            ∧ execsOf (configStage env inputData d s).trace = execsOf s.trace
        | none =>
          if (env.exec (s.execs + 1)).err = true then
            (configStage env inputData d s).halted = some Halt.panicked
              ∧ execsOf (configStage env inputData d s).trace
                = execsOf s.trace ++ [lockRpc, loadRpc (buildSetString inputData.CommandList)]
          else
            execsOf (configStage env inputData d s).trace
                = execsOf s.trace ++ [lockRpc, loadRpc (buildSetString inputData.CommandList),
                    validateRpc, diffRpc]
              ∧ (match (env.exec (s.execs + 3)).reply with
                | none => (configStage env inputData d s).halted = some Halt.panicked
                | some data =>
                  match env.unmarshal data with
                  | .error _ => (configStage env inputData d s).halted = some Halt.fatal
                  | .ok out =>
                    ∃ s1 ps, configStage env inputData d s
                          = Outcome.ok (!(env.exec s.execs).err) s1
                      ∧ printsOf s1.trace = printsOf s.trace ++ ps
                      ∧ ps.getLast? = some (colorLine out)
                      ∧ ((env.exec (s.execs + 3)).err = true → diffWarning ∈ ps))) := by
  cases hdial : env.dial s.dials with
  | some err =>
    simp [configStage, hdial, Outcome.trace, Outcome.state, Outcome.halted, dialsOf, asksOf,
      answersOf, execsOf]
  | none =>
    cases hload : (env.exec (s.execs + 1)).err with
    | true =>
      cases hlock : (env.exec s.execs).err <;>
        simp [configStage, hdial, hload, hlock, Outcome.trace, Outcome.state, Outcome.halted,
          dialsOf, asksOf, answersOf, execsOf]
    | false =>
      cases hreply : (env.exec (s.execs + 3)).reply with
      | none =>
        cases hlock : (env.exec s.execs).err <;> cases hval : (env.exec (s.execs + 2)).err <;>
          cases hdiff : (env.exec (s.execs + 3)).err <;>
          simp [configStage, hdial, hload, hlock, hval, hdiff, hreply, Outcome.trace,
            Outcome.state, Outcome.halted, dialsOf, asksOf, answersOf, execsOf]
      | some data =>
        cases hparse : env.unmarshal data with
        | error msg =>
          cases hlock : (env.exec s.execs).err <;> cases hval : (env.exec (s.execs + 2)).err <;>
            cases hdiff : (env.exec (s.execs + 3)).err <;>
            simp [configStage, hdial, hload, hlock, hval, hdiff, hreply, hparse, Outcome.trace,
              Outcome.state, Outcome.halted, dialsOf, asksOf, answersOf, execsOf]
        | ok out =>
          cases hlock : (env.exec s.execs).err <;> cases hval : (env.exec (s.execs + 2)).err <;>
            cases hdiff : (env.exec (s.execs + 3)).err <;>
            simp [configStage, hdial, hload, hlock, hval, hdiff, hreply, hparse, Outcome.trace,
              Outcome.state, Outcome.halted, dialsOf, asksOf, answersOf, execsOf, printsOf]

theorem ne_of_secondChar {s t : String} (h : secondChar s ≠ secondChar t) : s ≠ t :=
  fun e => h (by rw [e])

theorem secondChar_loadRpc (x : String) : secondChar (loadRpc x) = some 'l' := by
  simp [secondChar, loadRpc, String.data_append]

theorem secondChar_commitRpc (x : String) : secondChar (commitRpc x) = some 'c' := by
  simp [secondChar, commitRpc, String.data_append]

theorem secondChar_lockRpc : secondChar lockRpc = some 'l' := by decide

theorem secondChar_validateRpc : secondChar validateRpc = some 'v' := by decide

theorem secondChar_diffRpc : secondChar diffRpc = some 'g' := by decide

theorem secondChar_discardRpc : secondChar discardRpc = some 'd' := by decide

theorem secondChar_unlockRpc : secondChar unlockRpc = some 'u' := by decide

theorem configDevice_of_halted (env : Env) (inputData : cmdDataStruct) (d : String) (s : St)
    (h : Halt) (hs : (configStage env inputData d s).halted = some h) :
    (configDevice env inputData d s).halted = some h
      ∧ (configDevice env inputData d s).state = (configStage env inputData d s).state := by
  cases hc : configStage env inputData d s with
  | ok locked s1 => simp [hc, Outcome.halted] at hs
  | halt h1 s1 =>
    simp [hc, Outcome.halted] at hs
    subst hs
    simp [configDevice, hc, Outcome.halted, Outcome.state]

theorem configDevice_of_ok (env : Env) (inputData : cmdDataStruct) (d : String) (s s1 : St)
    (locked : Bool) (hs : configStage env inputData d s = Outcome.ok locked s1) :
    configDevice env inputData d s = configConfirm env inputData d locked s1 := by
  simp [configDevice, hs]

theorem configStage_cases (env : Env) (inputData : cmdDataStruct) (d : String) (s : St) :
    (∃ h, (configStage env inputData d s).halted = some h
        ∧ asksOf (configStage env inputData d s).trace = asksOf s.trace
        ∧ answersOf (configStage env inputData d s).trace = answersOf s.trace
        ∧ ∃ sent, execsOf (configStage env inputData d s).trace = execsOf s.trace ++ sent
            ∧ ((sent = [] ∧ h = Halt.fatal ∧ ∃ e, env.dial s.dials = some e)
              ∨ (sent = [lockRpc, loadRpc (buildSetString inputData.CommandList)]
                  ∧ h = Halt.panicked ∧ env.dial s.dials = none)
              ∨ (sent = [lockRpc, loadRpc (buildSetString inputData.CommandList),
                  validateRpc, diffRpc] ∧ env.dial s.dials = none)))
      ∨ (∃ s1, configStage env inputData d s = Outcome.ok (!(env.exec s.execs).err) s1
        ∧ env.dial s.dials = none
        ∧ (env.exec (s.execs + 1)).err = false
        ∧ asksOf s1.trace = asksOf s.trace
        ∧ answersOf s1.trace = answersOf s.trace
        ∧ execsOf s1.trace = execsOf s.trace
            ++ [lockRpc, loadRpc (buildSetString inputData.CommandList), validateRpc, diffRpc]) := by
  obtain ⟨-, -, hask, hans, hrest⟩ := configStage_run env inputData d s
  cases hdial : env.dial s.dials with
  | some err =>
    rw [hdial] at hrest
    exact Or.inl ⟨_, hrest.1, hask, hans, [], by simp [hrest.2], Or.inl ⟨rfl, rfl, err, rfl⟩⟩
  | none =>
    rw [hdial] at hrest
    cases hload : (env.exec (s.execs + 1)).err with
    | true =>
      simp only [hload, if_true] at hrest
      exact Or.inl ⟨_, hrest.1, hask, hans, _, hrest.2, Or.inr (Or.inl ⟨rfl, rfl, rfl⟩)⟩
    | false =>
      simp only [hload, Bool.false_eq_true, if_false] at hrest
      obtain ⟨hex, hrest⟩ := hrest
      cases hreply : (env.exec (s.execs + 3)).reply with
      | none =>
        simp only [hreply] at hrest
        exact Or.inl ⟨_, hrest, hask, hans, _, hex, Or.inr (Or.inr ⟨rfl, rfl⟩)⟩
      | some data =>
        simp only [hreply] at hrest
        cases hparse : env.unmarshal data with
        | error msg =>
          simp only [hparse] at hrest
          exact Or.inl ⟨_, hrest, hask, hans, _, hex, Or.inr (Or.inr ⟨rfl, rfl⟩)⟩
        | ok out =>
          simp only [hparse] at hrest
          obtain ⟨s1, ps, hs1, -⟩ := hrest
          rw [hs1] at hask hans hex
          exact Or.inr ⟨s1, hs1, rfl, rfl, hask, hans, hex⟩

theorem commitRpc_ne (ref : String) :
    commitRpc ref ≠ lockRpc ∧ (∀ x, commitRpc ref ≠ loadRpc x) ∧ commitRpc ref ≠ validateRpc
      ∧ commitRpc ref ≠ diffRpc ∧ commitRpc ref ≠ discardRpc ∧ commitRpc ref ≠ unlockRpc := by
  refine ⟨?_, fun x => ?_, ?_, ?_, ?_, ?_⟩ <;> apply ne_of_secondChar <;>
    simp [secondChar_commitRpc, secondChar_lockRpc, secondChar_loadRpc, secondChar_validateRpc,
      secondChar_diffRpc, secondChar_discardRpc, secondChar_unlockRpc]

theorem discardRpc_ne :
    discardRpc ≠ lockRpc ∧ (∀ x, discardRpc ≠ loadRpc x) ∧ discardRpc ≠ validateRpc
      ∧ discardRpc ≠ diffRpc ∧ (∀ ref, discardRpc ≠ commitRpc ref)
      ∧ discardRpc ≠ unlockRpc := by
  refine ⟨?_, fun x => ?_, ?_, ?_, fun ref => ?_, ?_⟩ <;> apply ne_of_secondChar <;>
    simp [secondChar_commitRpc, secondChar_lockRpc, secondChar_loadRpc, secondChar_validateRpc,
      secondChar_diffRpc, secondChar_discardRpc, secondChar_unlockRpc]

theorem unlockRpc_ne :
    unlockRpc ≠ lockRpc ∧ (∀ x, unlockRpc ≠ loadRpc x) ∧ unlockRpc ≠ validateRpc
      ∧ unlockRpc ≠ diffRpc ∧ (∀ ref, unlockRpc ≠ commitRpc ref)
      ∧ unlockRpc ≠ discardRpc := by
  refine ⟨?_, fun x => ?_, ?_, ?_, fun ref => ?_, ?_⟩ <;> apply ne_of_secondChar <;>
    simp [secondChar_commitRpc, secondChar_lockRpc, secondChar_loadRpc, secondChar_validateRpc,
      secondChar_diffRpc, secondChar_discardRpc, secondChar_unlockRpc]

/-- C5, counterexample. The lock is acquired and the load fails: the requests sent
are the lock and the load, and no unlock request is sent. -/
theorem load_failure_skips_unlock_counterexample :
    ((sampleEnv (fun _ => none) loadFails).exec 0).err = false
      ∧ ((sampleEnv (fun _ => none) loadFails).exec 1).err = true
      ∧ execsOf (configDevice (sampleEnv (fun _ => none) loadFails) sampleConfigOrder
            "10.0.0.1" (St.start ["y\n"])).trace
          = [lockRpc, loadRpc "\nset system host-name r1"]
      ∧ unlockRpc ∉ execsOf (configDevice (sampleEnv (fun _ => none) loadFails)
            sampleConfigOrder "10.0.0.1" (St.start ["y\n"])).trace := by
  decide!

/-- C5, amended. When the session is open and the load request fails, the run ends
there with a panic: the only requests sent to the device are the lock and the
load, so no validate, compare, commit, discard or unlock request is sent,
whether or not the lock was acquired, and the commit question is neither
asked nor answered. -/
theorem load_failure_ends_run (env : Env) (inputData : cmdDataStruct) (d : String) (st : St)
    (hdial : env.dial st.dials = none) (hload : (env.exec (st.execs + 1)).err = true) :
    (configDevice env inputData d st).halted = some Halt.panicked
      ∧ execsOf (configDevice env inputData d st).trace
          = execsOf st.trace ++ [lockRpc, loadRpc (buildSetString inputData.CommandList)]
      ∧ asksOf (configDevice env inputData d st).trace = asksOf st.trace
      ∧ answersOf (configDevice env inputData d st).trace = answersOf st.trace := by
  obtain ⟨-, -, hask, hans, hrest⟩ := configStage_run env inputData d st
  rw [hdial] at hrest
  simp only [hload, if_true] at hrest
  obtain ⟨hh, hs⟩ := configDevice_of_halted env inputData d st _ hrest.1
  refine ⟨hh, ?_, ?_, ?_⟩
  · rw [Outcome.trace, hs]; exact hrest.2
  · rw [Outcome.trace, hs]; exact hask
  · rw [Outcome.trace, hs]; exact hans

/-- C5, witness: the load of the first device fails. -/
theorem load_failure_ends_run_witness :
    (configDevice (sampleEnv (fun _ => none) loadFails) sampleConfigOrder "10.0.0.1"
        (St.start ["y\n"])).halted = some Halt.panicked
      ∧ execsOf (configDevice (sampleEnv (fun _ => none) loadFails) sampleConfigOrder "10.0.0.1"
          (St.start ["y\n"])).trace
          = execsOf (St.start ["y\n"]).trace
              ++ [lockRpc, loadRpc (buildSetString sampleConfigOrder.CommandList)]
      ∧ asksOf (configDevice (sampleEnv (fun _ => none) loadFails) sampleConfigOrder "10.0.0.1"
          (St.start ["y\n"])).trace = asksOf (St.start ["y\n"]).trace
      ∧ answersOf (configDevice (sampleEnv (fun _ => none) loadFails) sampleConfigOrder
          "10.0.0.1" (St.start ["y\n"])).trace = answersOf (St.start ["y\n"]).trace :=
  load_failure_ends_run (sampleEnv (fun _ => none) loadFails) sampleConfigOrder "10.0.0.1"
    (St.start ["y\n"]) rfl rfl

theorem configDevice_confirm_cases (env : Env) (inputData : cmdDataStruct)
    (d : String) (st : St) :
    ∃ sent answered,
      execsOf (configDevice env inputData d st).trace = execsOf st.trace ++ sent
        ∧ answersOf (configDevice env inputData d st).trace = answersOf st.trace ++ answered
        ∧ ∀ a, (commitQuestion, a) ∈ answered →
            ((a = "n" ∧ discardRpc ∈ sent ∧ ∀ ref, commitRpc ref ∉ sent)
              ∨ (a = "y" ∧ commitRpc inputData.ReferenceData ∈ sent ∧ discardRpc ∉ sent))
            ∧ sent.count discardRpc + sent.count (commitRpc inputData.ReferenceData) = 1 := by
  obtain ⟨c1, c2, c3, c4, c5, c6⟩ := commitRpc_ne inputData.ReferenceData
  obtain ⟨d1, d2, d3, d4, d5, d6⟩ := discardRpc_ne
  obtain ⟨u1, u2, u3, u4, u5, u6⟩ := unlockRpc_ne
  rcases configStage_cases env inputData d st with
    ⟨h, hh, -, hans, sent, hsent, -⟩ | ⟨s1, hs1, -, -, -, hans1, hex1⟩
  · obtain ⟨-, hs⟩ := configDevice_of_halted env inputData d st h hh
    refine ⟨sent, [], ?_, ?_, ?_⟩
    · rw [Outcome.trace, hs]; exact hsent
    · rw [Outcome.trace, hs]; simpa using hans
    · intro a ha; simp at ha
  · rw [configDevice_of_ok env inputData d st s1 _ hs1]
    obtain ⟨-, -, -, hc⟩ := configConfirm_run env inputData d (!(env.exec st.execs).err) s1
    rcases hc with ⟨-, hex, hans⟩ | ⟨-, ans, op, hop, hans, hex⟩
    · refine ⟨[lockRpc, loadRpc (buildSetString inputData.CommandList), validateRpc, diffRpc],
        [], ?_, ?_, ?_⟩
      · rw [hex, hex1]
      · rw [hans, hans1]; simp
      · intro a ha; simp at ha
    · refine ⟨[lockRpc, loadRpc (buildSetString inputData.CommandList), validateRpc, diffRpc]
          ++ op :: (if (!(env.exec st.execs).err) = true then [unlockRpc] else []),
        [(commitQuestion, ans)], ?_, ?_, ?_⟩
      · rw [hex, hex1, List.append_assoc]
      · rw [hans, hans1]
      · intro a ha
        have ha2 : a = ans := by simpa using ha
        subst ha2
        rcases hop with ⟨h1, h2⟩ | ⟨h1, h2⟩ <;> subst h1 <;> subst h2
        · refine ⟨Or.inl ⟨rfl, by simp, ?_⟩, ?_⟩
          · intro ref
            obtain ⟨r1, r2, r3, r4, r5, r6⟩ := commitRpc_ne ref
            cases (env.exec st.execs).err <;> simp [r1, r2, r3, r4, r5, r6]
          · cases (env.exec st.execs).err <;>
              simp [List.count_cons, c1, c2, c3, c4, c5, c6, d1, d2, d3, d4, d5, d6,
                Ne.symm c1, Ne.symm (c2 _), Ne.symm c3, Ne.symm c4, Ne.symm c5, Ne.symm c6,
                Ne.symm d1, Ne.symm (d2 _), Ne.symm d3, Ne.symm d4, Ne.symm (d5 _), Ne.symm d6]
        · refine ⟨Or.inr ⟨rfl, by simp, ?_⟩, ?_⟩
          · cases (env.exec st.execs).err <;> simp [d1, d2, d3, d4, d5, d6]
          · cases (env.exec st.execs).err <;>
              simp [List.count_cons, c1, c2, c3, c4, c5, c6, d1, d2, d3, d4, d5, d6,
                Ne.symm c1, Ne.symm (c2 _), Ne.symm c3, Ne.symm c4, Ne.symm c5, Ne.symm c6,
                Ne.symm d1, Ne.symm (d2 _), Ne.symm d3, Ne.symm d4, Ne.symm (d5 _), Ne.symm d6]

/-- C4. In the configuration workflow of one device, let `sent` be the requests
sent and `answered` the questions answered during the run. When the commit
question was answered `a`, then either `a` is `n`, the discard request is in
`sent` and no commit request is, or `a` is `y`, the commit request is in `sent`
and the discard request is not; in both cases exactly one of the two requests
was sent. -/
theorem confirm_answer_selects_commit_or_discard (env : Env) (inputData : cmdDataStruct)
    (d : String) (st : St) (sent : List String) (answered : List (String × String))
    (hsent : execsOf (configDevice env inputData d st).trace = execsOf st.trace ++ sent)
    (hanswered : answersOf (configDevice env inputData d st).trace
      = answersOf st.trace ++ answered)
    (a : String) (ha : (commitQuestion, a) ∈ answered) :
    ((a = "n" ∧ discardRpc ∈ sent ∧ ∀ ref, commitRpc ref ∉ sent)
        ∨ (a = "y" ∧ commitRpc inputData.ReferenceData ∈ sent ∧ discardRpc ∉ sent))
      ∧ sent.count discardRpc + sent.count (commitRpc inputData.ReferenceData) = 1 := by
  obtain ⟨sent2, answered2, h1, h2, h3⟩ := configDevice_confirm_cases env inputData d st
  have e1 : sent = sent2 := List.append_cancel_left (hsent.symm.trans h1)
  have e2 : answered = answered2 := List.append_cancel_left (hanswered.symm.trans h2)
  subst e1
  subst e2
  exact h3 a ha

/-- C4, witness: the user first types `maybe`, then `N`; the change is discarded. -/
theorem confirm_answer_selects_commit_or_discard_witness :
    ((("n" : String) = "n" ∧ discardRpc ∈ [lockRpc, loadRpc "\nset system host-name r1",
          validateRpc, diffRpc, discardRpc, unlockRpc]
        ∧ ∀ ref, commitRpc ref ∉ [lockRpc, loadRpc "\nset system host-name r1",
          validateRpc, diffRpc, discardRpc, unlockRpc])
      ∨ (("n" : String) = "y" ∧ commitRpc sampleConfigOrder.ReferenceData
            ∈ [lockRpc, loadRpc "\nset system host-name r1", validateRpc, diffRpc, discardRpc,
                unlockRpc]
          ∧ discardRpc ∉ [lockRpc, loadRpc "\nset system host-name r1", validateRpc, diffRpc,
                discardRpc, unlockRpc]))
      ∧ [lockRpc, loadRpc "\nset system host-name r1", validateRpc, diffRpc, discardRpc,
            unlockRpc].count discardRpc
          + [lockRpc, loadRpc "\nset system host-name r1", validateRpc, diffRpc, discardRpc,
            unlockRpc].count (commitRpc sampleConfigOrder.ReferenceData) = 1 :=
  confirm_answer_selects_commit_or_discard
    (sampleEnv (fun _ => none) (replyAlways "<configuration-information/>")) sampleConfigOrder
    "10.0.0.1" (St.start ["maybe\n", "N\r\n"])
    [lockRpc, loadRpc "\nset system host-name r1", validateRpc, diffRpc, discardRpc, unlockRpc]
    [(commitQuestion, "n")] (by decide!) (by decide!) "n" (by decide)

/-- C7. In the configuration workflow of one device whose session opens, the
requests sent start with the lock followed by the load, whether or not the lock
succeeded; and when the workflow runs to its end the requests are the lock, the
load, the validate, the compare, then the discard or the commit, then the
unlock if the lock succeeded and nothing if it failed: the unlock is sent, at
most once, exactly when the lock succeeded. -/
theorem lock_failure_is_not_fatal (env : Env) (inputData : cmdDataStruct) (d : String)
    (st : St) (hdial : env.dial st.dials = none) :
    ∃ sent,
      execsOf (configDevice env inputData d st).trace = execsOf st.trace ++ sent
        ∧ (∃ rest, sent = lockRpc :: loadRpc (buildSetString inputData.CommandList) :: rest)
        ∧ ((configDevice env inputData d st).halted = none →
            (∃ op, (op = discardRpc ∨ op = commitRpc inputData.ReferenceData)
              ∧ sent = [lockRpc, loadRpc (buildSetString inputData.CommandList), validateRpc,
                  diffRpc, op] ++ (if (env.exec st.execs).err = true then [] else [unlockRpc]))
            ∧ (unlockRpc ∈ sent ↔ (env.exec st.execs).err = false)
            ∧ sent.count unlockRpc ≤ 1) := by
  obtain ⟨c1, c2, c3, c4, c5, c6⟩ := commitRpc_ne inputData.ReferenceData
  obtain ⟨d1, d2, d3, d4, d5, d6⟩ := discardRpc_ne
  obtain ⟨u1, u2, u3, u4, u5, u6⟩ := unlockRpc_ne
  rcases configStage_cases env inputData d st with
    ⟨h, hh, -, -, sent, hsent, hcase⟩ | ⟨s1, hs1, -, -, -, -, hex1⟩
  · obtain ⟨hh2, hs⟩ := configDevice_of_halted env inputData d st h hh
    refine ⟨sent, ?_, ?_, ?_⟩
    · rw [Outcome.trace, hs]; exact hsent
    · rcases hcase with ⟨-, -, e, he⟩ | ⟨h1, -, -⟩ | ⟨h1, -⟩
      · rw [hdial] at he; cases he
      · exact ⟨[], h1⟩
      · exact ⟨[validateRpc, diffRpc], h1⟩
    · intro hn; rw [hh2] at hn; cases hn
  · rw [configDevice_of_ok env inputData d st s1 _ hs1]
    obtain ⟨-, -, -, hc⟩ := configConfirm_run env inputData d (!(env.exec st.execs).err) s1
    rcases hc with ⟨hh, hex, -⟩ | ⟨-, ans, op, hop, -, hex⟩
    · refine ⟨[lockRpc, loadRpc (buildSetString inputData.CommandList), validateRpc, diffRpc],
        ?_, ⟨_, rfl⟩, ?_⟩
      · rw [hex, hex1]
      · intro hn; rw [hh] at hn; cases hn
    · refine ⟨[lockRpc, loadRpc (buildSetString inputData.CommandList), validateRpc, diffRpc]
          ++ op :: (if (!(env.exec st.execs).err) = true then [unlockRpc] else []),
        ?_, ⟨_, rfl⟩, ?_⟩
      · rw [hex, hex1, List.append_assoc]
      · intro _
        have hop2 : op = discardRpc ∨ op = commitRpc inputData.ReferenceData := by
          rcases hop with ⟨-, h2⟩ | ⟨-, h2⟩
          · exact Or.inl h2
          · exact Or.inr h2
        refine ⟨⟨op, hop2, ?_⟩, ?_, ?_⟩
        · cases (env.exec st.execs).err <;> simp
        · rcases hop2 with h2 | h2 <;> subst h2 <;> cases (env.exec st.execs).err <;>
            simp [u1, u2, u3, u4, u5, u6]
        · rcases hop2 with h2 | h2 <;> subst h2 <;> cases (env.exec st.execs).err <;>
            simp [List.count_cons, u1, u2, u3, u4, u5, u6, Ne.symm u1, Ne.symm (u2 _),
              Ne.symm u3, Ne.symm u4, Ne.symm (u5 _), Ne.symm u6]

/-- C7, witness: the lock fails, the user answers `y`, the workflow runs to its end. -/
theorem lock_failure_is_not_fatal_witness :
    ((sampleEnv (fun _ => none) lockFails).exec 0).err = true
      ∧ (configDevice (sampleEnv (fun _ => none) lockFails) sampleConfigOrder "10.0.0.1"
          (St.start ["y\n"])).halted = none
      ∧ ∃ sent,
        execsOf (configDevice (sampleEnv (fun _ => none) lockFails) sampleConfigOrder "10.0.0.1"
            (St.start ["y\n"])).trace = execsOf (St.start ["y\n"]).trace ++ sent
          ∧ (∃ rest, sent = lockRpc :: loadRpc (buildSetString sampleConfigOrder.CommandList)
              :: rest)
          ∧ ((configDevice (sampleEnv (fun _ => none) lockFails) sampleConfigOrder "10.0.0.1"
                (St.start ["y\n"])).halted = none →
              (∃ op, (op = discardRpc ∨ op = commitRpc sampleConfigOrder.ReferenceData)
                ∧ sent = [lockRpc, loadRpc (buildSetString sampleConfigOrder.CommandList),
                    validateRpc, diffRpc, op]
                    ++ (if ((sampleEnv (fun _ => none) lockFails).exec
                          (St.start ["y\n"]).execs).err = true then [] else [unlockRpc]))
              ∧ (unlockRpc ∈ sent ↔ ((sampleEnv (fun _ => none) lockFails).exec
                    (St.start ["y\n"]).execs).err = false)
              ∧ sent.count unlockRpc ≤ 1) :=
  ⟨rfl, by decide!,
    lock_failure_is_not_fatal (sampleEnv (fun _ => none) lockFails) sampleConfigOrder "10.0.0.1"
      (St.start ["y\n"]) rfl⟩

theorem configConfirm_prints (env : Env) (inputData : cmdDataStruct) (d : String)
    (configLocked : Bool) (s : St) :
    ∃ ps, printsOf (configConfirm env inputData d configLocked s).trace = printsOf s.trace ++ ps := by
  rcases ForceSelect_run env commitQuestion "y" "n" s with
    ⟨ans, n, rest, hans, hrun⟩ | ⟨n, hrun⟩
  · rcases hans with hans | hans <;> subst hans <;>
      (simp only [configConfirm, hrun, bind_run]
       simp
       split_ifs <;>
        simp_all [Outcome.trace, Outcome.state, printsOf, List.replicate_succ])
  · exact ⟨[], by simp [configConfirm, hrun, Outcome.trace, Outcome.state]⟩

/-- C8, counterexample. The compare request succeeds with an empty reply, which
`xml.Unmarshal` cannot parse: the run ends in `log.Fatal` and the commit
question is never asked. -/
theorem unparsed_diff_ends_run_counterexample :
    ((sampleEnv (fun _ => none) (replyAlways "")).exec 3).reply = some ""
      ∧ ((sampleEnv (fun _ => none) (replyAlways "")).exec 3).err = false
      ∧ (sampleEnv (fun _ => none) (replyAlways "")).unmarshal "" = Except.error "EOF"
      ∧ (configDevice (sampleEnv (fun _ => none) (replyAlways "")) sampleConfigOrder
            "10.0.0.1" (St.start ["y\n"])).halted = some Halt.fatal
      ∧ asksOf (configDevice (sampleEnv (fun _ => none) (replyAlways "")) sampleConfigOrder
            "10.0.0.1" (St.start ["y\n"])).trace = [] :=
  ⟨rfl, rfl, rfl, by decide!, by decide!⟩

/-- C8, amended. Let the session be open, the load succeed and the compare request
return a reply, with or without an error. If the reply parses as a
configuration-information document, the workflow goes on to the Confirming
step: the parsed configuration output is printed (as `color.Yellow` prints it,
a newline added when it has none), the commit question is asked, and the
warning is printed when the request reported an error. If the reply does not
parse, the run ends in `log.Fatal` after the compare request and the commit
question is not asked. -/
theorem diff_failure_is_fatal_only_when_unparsed (env : Env) (inputData : cmdDataStruct)
    (d : String) (st : St) (hdial : env.dial st.dials = none)
    (hload : (env.exec (st.execs + 1)).err = false) (data : String)
    (hreply : (env.exec (st.execs + 3)).reply = some data) :
    (∀ out, env.unmarshal data = Except.ok out →
        (∃ n, asksOf (configDevice env inputData d st).trace
            = asksOf st.trace ++ List.replicate (n + 1) commitQuestion)
          ∧ ∃ shown, printsOf (configDevice env inputData d st).trace = printsOf st.trace ++ shown
              ∧ (if out.data.getLast? = some '\n' then out else out ++ "\n") ∈ shown
              ∧ ((env.exec (st.execs + 3)).err = true → diffWarning ∈ shown))
      ∧ (∀ msg, env.unmarshal data = Except.error msg →
          (configDevice env inputData d st).halted = some Halt.fatal
            ∧ asksOf (configDevice env inputData d st).trace = asksOf st.trace
            ∧ execsOf (configDevice env inputData d st).trace = execsOf st.trace
                ++ [lockRpc, loadRpc (buildSetString inputData.CommandList), validateRpc,
                    diffRpc]) := by
  obtain ⟨-, -, hask, -, hrest⟩ := configStage_run env inputData d st
  rw [hdial] at hrest
  simp only [hload, Bool.false_eq_true, if_false, hreply] at hrest
  obtain ⟨hex, hrest⟩ := hrest
  constructor
  · intro out hparse
    simp only [hparse] at hrest
    obtain ⟨s1, ps, hs1, hps, hlast, hwarn⟩ := hrest
    rw [hs1] at hask
    rw [configDevice_of_ok env inputData d st s1 _ hs1]
    obtain ⟨-, -, ⟨n, hn⟩, -⟩ := configConfirm_run env inputData d (!(env.exec st.execs).err) s1
    obtain ⟨ps2, hps2⟩ := configConfirm_prints env inputData d (!(env.exec st.execs).err) s1
    refine ⟨⟨n, ?_⟩, ps ++ ps2, ?_, ?_, ?_⟩
    · rw [hn]; simp only [Outcome.trace, Outcome.state] at hask; rw [hask]
    · rw [hps2, hps, List.append_assoc]
    · exact List.mem_append_left _ (List.mem_of_mem_getLast? hlast)
    · intro he; exact List.mem_append_left _ (hwarn he)
  · intro msg hparse
    simp only [hparse] at hrest
    obtain ⟨hh, hs⟩ := configDevice_of_halted env inputData d st _ hrest
    refine ⟨hh, ?_, ?_⟩
    · rw [Outcome.trace, hs]; exact hask
    · rw [Outcome.trace, hs]; exact hex

/-- C8, witness: the compare request succeeds with a reply that parses; the
configuration output is shown and the question is asked. -/
theorem diff_failure_is_fatal_only_when_unparsed_witness :
    (∃ n, asksOf (configDevice (sampleEnv (fun _ => none)
          (replyAlways "<configuration-information/>")) sampleConfigOrder
            "10.0.0.1" (St.start ["y\n"])).trace
          = asksOf (St.start ["y\n"]).trace ++ List.replicate (n + 1) commitQuestion)
      ∧ ∃ shown, printsOf (configDevice (sampleEnv (fun _ => none)
          (replyAlways "<configuration-information/>")) sampleConfigOrder
            "10.0.0.1" (St.start ["y\n"])).trace = printsOf (St.start ["y\n"]).trace ++ shown
          ∧ "<configuration-information/>\n" ∈ shown
          ∧ (((sampleEnv (fun _ => none) (replyAlways "<configuration-information/>")).exec
                ((St.start ["y\n"]).execs + 3)).err = true → diffWarning ∈ shown) :=
  (diff_failure_is_fatal_only_when_unparsed
    (sampleEnv (fun _ => none) (replyAlways "<configuration-information/>"))
    sampleConfigOrder "10.0.0.1" (St.start ["y\n"]) rfl rfl "<configuration-information/>"
    rfl).1 "<configuration-information/>" rfl

/-- A compare request that returns no reply: `rpcResp` is nil when its `Data` is
read (main.go 364), so the run ends in a panic after the compare request and
the commit question is not asked. -/
theorem compare_without_reply_panics (env : Env) (inputData : cmdDataStruct)
    (d : String) (st : St) (hdial : env.dial st.dials = none)
    (hload : (env.exec (st.execs + 1)).err = false)
    (hreply : (env.exec (st.execs + 3)).reply = none) :
    (configDevice env inputData d st).halted = some Halt.panicked
      ∧ asksOf (configDevice env inputData d st).trace = asksOf st.trace
      ∧ execsOf (configDevice env inputData d st).trace = execsOf st.trace
          ++ [lockRpc, loadRpc (buildSetString inputData.CommandList), validateRpc,
              diffRpc] := by
  obtain ⟨-, -, hask, -, hrest⟩ := configStage_run env inputData d st
  rw [hdial] at hrest
  simp only [hload, Bool.false_eq_true, if_false, hreply] at hrest
  obtain ⟨hex, hrest⟩ := hrest
  obtain ⟨hh, hs⟩ := configDevice_of_halted env inputData d st _ hrest
  refine ⟨hh, ?_, ?_⟩
  · rw [Outcome.trace, hs]; exact hask
  · rw [Outcome.trace, hs]; exact hex

/-! ### Classification comes before any session (C3) -/

theorem printEach_run (fmt : String → String) (l : List String) (s : St) :
    printEach fmt l s
      = Outcome.ok () { s with trace := s.trace ++ l.map (fun i => Event.print (fmt i)) } := by
  induction l generalizing s with
  | nil => simp [printEach]
  | cons i rest ih => simp [printEach, ih]

@[simp] theorem dialsOf_map_print (l : List String) (fmt : String → String) :
    dialsOf (l.map (fun i => Event.print (fmt i))) = [] := by
  induction l with
  | nil => rfl
  | cons i rest ih => simp [dialsOf, ih]

@[simp] theorem execsOf_map_print (l : List String) (fmt : String → String) :
    execsOf (l.map (fun i => Event.print (fmt i))) = [] := by
  induction l with
  | nil => rfl
  | cons i rest ih => simp [execsOf, ih]

theorem rejects_mode (scriptMode i : String) (h : rejects scriptMode i = true) :
    scriptMode = "c" ∨ scriptMode = "o" := by
  unfold rejects at h
  by_cases hc : scriptMode = "c"
  · exact Or.inl hc
  · by_cases ho : scriptMode = "o"
    · exact Or.inr ho
    · simp [hc, ho] at h

theorem mainAfterMode_of_rejected (env : Env) (inputData : cmdDataStruct) (saveOuputs : Bool)
    (scriptMode : String) (st : St)
    (hbad : ∃ i ∈ inputData.CommandList, accepts scriptMode i = false) :
    (mainAfterMode env inputData saveOuputs scriptMode st).halted = some Halt.exit0
      ∧ dialsOf (mainAfterMode env inputData saveOuputs scriptMode st).trace = dialsOf st.trace
      ∧ execsOf (mainAfterMode env inputData saveOuputs scriptMode st).trace
          = execsOf st.trace := by
  obtain ⟨i, hi, hacc⟩ := hbad
  have hrej : rejects scriptMode i = true := by simpa [accepts] using hacc
  have hm := rejects_mode scriptMode i hrej
  have hne : ¬ ∀ a ∈ inputData.CommandList, rejects scriptMode a = false := by
    intro h0
    rw [h0 i hi] at hrej
    cases hrej
  refine ⟨?_, ?_, ?_⟩ <;>
    simp [mainAfterMode, beforeSending, classifyLoop_eq scriptMode hm, hne, printEach_run, Outcome.halted,
      Outcome.trace, Outcome.state, dialsOf, execsOf]

/-- C3. If some command of the list is rejected for the mode, `main` ends in
`os.Exit(0)` without dialling a device and without sending a request to one;
hence in every run that dials a device every command was accepted. -/
theorem rejected_command_aborts_before_any_session (env : Env) (inputData : cmdDataStruct)
    (saveOuputs : Bool) (scriptMode : String) (st : St) :
    ((∃ i ∈ inputData.CommandList, accepts scriptMode i = false) →
        (mainAfterMode env inputData saveOuputs scriptMode st).halted = some Halt.exit0
          ∧ dialsOf (mainAfterMode env inputData saveOuputs scriptMode st).trace
              = dialsOf st.trace
          ∧ execsOf (mainAfterMode env inputData saveOuputs scriptMode st).trace
              = execsOf st.trace)
      ∧ (dialsOf (mainAfterMode env inputData saveOuputs scriptMode st).trace ≠ dialsOf st.trace →
          ∀ i ∈ inputData.CommandList, accepts scriptMode i = true) := by
  refine ⟨mainAfterMode_of_rejected env inputData saveOuputs scriptMode st, ?_⟩
  intro hd i hi
  cases hacc : accepts scriptMode i with
  | true => rfl
  | false =>
    exact absurd (mainAfterMode_of_rejected env inputData saveOuputs scriptMode st
      ⟨i, hi, hacc⟩).2.1 hd

/-- C3, witness: a configuration run whose list holds `show version`. -/
theorem rejected_command_aborts_witness :
    (mainAfterMode (sampleEnv (fun _ => none) (replyAlways "<ok/>"))
        { sampleConfigOrder with CommandList := ["set system host-name r1", "show version"] }
        false "c" (St.start ["y\n", "admin\n", "secret\n", "y\n"])).halted = some Halt.exit0
      ∧ dialsOf (mainAfterMode (sampleEnv (fun _ => none) (replyAlways "<ok/>"))
        { sampleConfigOrder with CommandList := ["set system host-name r1", "show version"] }
        false "c" (St.start ["y\n", "admin\n", "secret\n", "y\n"])).trace = []
      ∧ execsOf (mainAfterMode (sampleEnv (fun _ => none) (replyAlways "<ok/>"))
        { sampleConfigOrder with CommandList := ["set system host-name r1", "show version"] }
        false "c" (St.start ["y\n", "admin\n", "secret\n", "y\n"])).trace = [] :=
  (rejected_command_aborts_before_any_session (sampleEnv (fun _ => none) (replyAlways "<ok/>"))
    { sampleConfigOrder with CommandList := ["set system host-name r1", "show version"] }
    false "c" (St.start ["y\n", "admin\n", "secret\n", "y\n"])).1
    ⟨"show version", by decide, by decide⟩

/-! ### The output file of the operational workflow (C9) -/

@[simp] theorem fileCall_run (env : Env) (e : Event) (s : St) :
    fileCall env e s = .ok (env.fileOp s.fileOps)
      { s with fileOps := s.fileOps + 1, trace := s.trace ++ [e] } := rfl

@[simp] theorem osStat_run (env : Env) (s : St) :
    osStat env s = .ok (env.stat s.stats) { s with stats := s.stats + 1 } := rfl

theorem opCommandLoop_cons_saved (env : Env) (inputData : cmdDataStruct) (d c data : String)
    (rest : List String) (s : St) (hfile : ∀ n, env.fileOp n = none)
    (hex : env.exec s.execs = { reply := some data, err := false }) :
    opCommandLoop env inputData true d (c :: rest) s
      = opCommandLoop env inputData true d rest
          { s with execs := s.execs + 1, fileOps := s.fileOps + 1 + 1,
                   trace := s.trace ++ [Event.exec d (commandRpc c),
                     Event.openAppend (outputFileName inputData d),
                     Event.write (outputFileName inputData d)
                       (c ++ "\n" ++ separator ++ commandOutputStripper data),
                     Event.print (colorLine (commandOutputStripper data))] } := by
  rw [opCommandLoop]
  simp [hex, hfile]

theorem opCommandLoop_written (env : Env) (inputData : cmdDataStruct) (d : String)
    (out : Nat → String) (hfile : ∀ n, env.fileOp n = none) (cmds : List String) (k0 : Nat)
    (s : St)
    (hexec : ∀ k, k < cmds.length →
      env.exec (s.execs + k) = { reply := some (out (k0 + k)), err := false }) :
    (opCommandLoop env inputData true d cmds s).halted = none
      ∧ writtenTo (outputFileName inputData d) (opCommandLoop env inputData true d cmds s).trace
          = writtenTo (outputFileName inputData d) s.trace ++ blocksFrom out k0 cmds := by
  induction cmds generalizing s k0 with
  | nil => simp [opCommandLoop, Outcome.halted, Outcome.trace, Outcome.state, blocksFrom]
  | cons c rest ih =>
    have h0 := hexec 0 (by simp)
    rw [opCommandLoop_cons_saved env inputData d c (out k0) rest s hfile (by simpa using h0)]
    have hnext : ∀ k, k < rest.length →
        env.exec (s.execs + 1 + k) = { reply := some (out (k0 + 1 + k)), err := false } := by
      intro k hk
      have := hexec (k + 1) (by simp; omega)
      have e1 : s.execs + (k + 1) = s.execs + 1 + k := by omega
      have e2 : k0 + (k + 1) = k0 + 1 + k := by omega
      rw [e1, e2] at this
      exact this
    obtain ⟨hh, hw⟩ := ih (k0 + 1)
      { s with execs := s.execs + 1, fileOps := s.fileOps + 1 + 1,
               trace := s.trace ++ [Event.exec d (commandRpc c),
                 Event.openAppend (outputFileName inputData d),
                 Event.write (outputFileName inputData d)
                   (c ++ "\n" ++ separator ++ commandOutputStripper (out k0)),
                 Event.print (colorLine (commandOutputStripper (out k0)))] } hnext
    refine ⟨hh, ?_⟩
    rw [hw]
    simp [writtenTo, blocksFrom, String.append_assoc]

theorem createOutputFile_run (env : Env) (inputData : cmdDataStruct) (d : String) (s : St)
    (hfile : ∀ n, env.fileOp n = none) :
    ∃ s1, createOutputFile env inputData true d s = Outcome.ok true s1
      ∧ s1.dials = s.dials ∧ s1.execs = s.execs
      ∧ ∀ path, writtenTo path s1.trace = writtenTo path s.trace := by
  cases h1 : env.stat s.stats <;> cases h2 : env.stat (s.stats + 1) <;>
    simp [createOutputFile, FileExistsAndIsNotADirectory, FileExists, FileIsADirectory, h1, h2,
      hfile, writtenTo]

theorem opSession_written (env : Env) (inputData : cmdDataStruct) (d : String)
    (out : Nat → String) (s : St) (hdial : env.dial s.dials = none)
    (hfile : ∀ n, env.fileOp n = none)
    (hexec : ∀ k, k < inputData.CommandList.length →
      env.exec (s.execs + k) = { reply := some (out k), err := false }) :
    (opSession env inputData true d s).halted = none
      ∧ writtenTo (outputFileName inputData d) (opSession env inputData true d s).trace
          = writtenTo (outputFileName inputData d) s.trace
              ++ blocksFrom out 0 inputData.CommandList := by
  obtain ⟨hh, hw⟩ := opCommandLoop_written env inputData d out hfile inputData.CommandList 0
    { s with dials := s.dials + 1,
             trace := s.trace ++ [Event.print
               ("\n\nConnecting to: " ++ d ++ "\n===========================\n"),
               Event.dial (d ++ ":830")] }
    (by intro k hk; simpa using hexec k hk)
  cases hloop : opCommandLoop env inputData true d inputData.CommandList
    { s with dials := s.dials + 1,
             trace := s.trace ++ [Event.print
               ("\n\nConnecting to: " ++ d ++ "\n===========================\n"),
               Event.dial (d ++ ":830")] } with
  | halt h s2 => rw [hloop] at hh; cases hh
  | ok u s2 =>
    rw [hloop] at hw
    simp only [Outcome.trace, Outcome.state] at hw
    simp [opSession, hdial, hloop, Outcome.halted, Outcome.trace, Outcome.state, hw, writtenTo]

theorem replaceChars_dot (l : List Char) :
    replaceChars ['.'] ['_'] 0 l = l.map (fun c => if c = '.' then '_' else c) := by
  induction l with
  | nil => rfl
  | cons c cs ih =>
    by_cases h : c = '.'
    · subst h
      simp [replaceChars, ih]
    · simp [replaceChars, ih, h]
      intro h2
      exact absurd h2.symm h

/-- C9, counterexample. Device `10.0.0.1`, reference `run-42`, both commands answered
`<output>Hostname: r1</output>`: the text written to `run-42/10_0_0_1.txt` has
the output right after the separator, with no newline between them. -/
theorem output_block_has_no_newline_counterexample :
    writtenTo "run-42/10_0_0_1.txt"
        (opDevice (sampleEnv (fun _ => none) (replyAlways "<output>Hostname: r1</output>"))
          sampleOpOrder true "10.0.0.1" (St.start [])).trace
      = "show version\n" ++ separator ++ "Hostname: r1"
          ++ "show interfaces\n" ++ separator ++ "Hostname: r1"
    ∧ writtenTo "run-42/10_0_0_1.txt"
        (opDevice (sampleEnv (fun _ => none) (replyAlways "<output>Hostname: r1</output>"))
          sampleOpOrder true "10.0.0.1" (St.start [])).trace
      ≠ "show version\n" ++ separator ++ "\n" ++ "Hostname: r1"
          ++ "show interfaces\n" ++ separator ++ "\n" ++ "Hostname: r1" := by
  decide!

/-- C9, amended. With output capture on, when the session opens, every file
operation succeeds and the k-th command is answered `out k` without error, the
device workflow runs to its end and the text written to the output file is the
concatenation, in command order, of one block per command made of the command,
a newline, the separator and the stripped output (nothing stands between the
separator and the output). The file is named after the reference, a slash, the
address with every `.` replaced by `_`, and `.txt`. -/
theorem output_file_holds_command_blocks (env : Env) (inputData : cmdDataStruct) (d : String)
    (out : Nat → String) (st : St) (hdial : env.dial st.dials = none)
    (hfile : ∀ n, env.fileOp n = none)
    (hexec : ∀ k, k < inputData.CommandList.length →
      env.exec (st.execs + k) = { reply := some (out k), err := false }) :
    (opDevice env inputData true d st).halted = none
      ∧ writtenTo (outputFileName inputData d) (opDevice env inputData true d st).trace
          = writtenTo (outputFileName inputData d) st.trace
              ++ blocksFrom out 0 inputData.CommandList
      ∧ outputFileName inputData d
          = inputData.ReferenceData ++ "/"
              ++ String.mk (d.data.map (fun c => if c = '.' then '_' else c)) ++ ".txt" := by
  obtain ⟨s1, hs1, hd1, he1, hw1⟩ := createOutputFile_run env inputData d st hfile
  obtain ⟨hh, hw⟩ := opSession_written env inputData d out s1 (by rw [hd1]; exact hdial) hfile
    (by intro k hk; rw [he1]; exact hexec k hk)
  refine ⟨?_, ?_, ?_⟩
  · simpa [opDevice, hs1] using hh
  · rw [← hw1]
    simpa [opDevice, hs1] using hw
  · have hr : Replace d "." "_" = String.mk (d.data.map (fun c => if c = '.' then '_' else c)) := by
      apply String.ext
      exact replaceChars_dot d.data
    rw [outputFileName, hr]

/-- C9, witness: device `10.0.0.1`, reference `run-42`, commands `show version` and
`show interfaces`. -/
theorem output_file_holds_command_blocks_witness :
    writtenTo "run-42/10_0_0_1.txt"
        (opDevice (sampleEnv (fun _ => none) (replyAlways "<output>\nHostname: r1\n</output>"))
          sampleOpOrder true "10.0.0.1" (St.start [])).trace
      = "show version\n" ++ separator ++ "\nHostname: r1\n"
          ++ ("show interfaces\n" ++ separator ++ "\nHostname: r1\n") := by
  have h := (output_file_holds_command_blocks
    (sampleEnv (fun _ => none) (replyAlways "<output>\nHostname: r1\n</output>"))
    sampleOpOrder "10.0.0.1" (fun _ => "<output>\nHostname: r1\n</output>") (St.start [])
    rfl (fun _ => rfl) (fun _ _ => rfl)).2.1
  have hp : outputFileName sampleOpOrder "10.0.0.1" = "run-42/10_0_0_1.txt" := by decide
  have hb : blocksFrom (fun _ => "<output>\nHostname: r1\n</output>") 0 sampleOpOrder.CommandList
      = "show version\n" ++ separator ++ "\nHostname: r1\n"
          ++ ("show interfaces\n" ++ separator ++ "\nHostname: r1\n") := by decide
  rw [hp, hb] at h
  exact h.trans (by decide!)

/-! ### Connections over the whole run (C6) -/

theorem quiet_bind {α β : Type} {m : M α} {f : α → M β} (hm : Quiet m)
    (hf : ∀ a, Quiet (f a)) : Quiet (m >>= f) := by
  intro s
  cases h : m s with
  | ok a s1 =>
    have h1 := hm s
    have h2 := hf a s1
    rw [h] at h1
    simp only [Outcome.state, Outcome.trace] at h1
    simp only [bind_run, h]
    exact ⟨h2.1.trans h1.1, h2.2.trans h1.2⟩
  | halt hh s1 =>
    have h1 := hm s
    rw [h] at h1
    simp only [bind_run, h]
    exact h1

theorem quiet_pure {α : Type} (a : α) : Quiet (pure a : M α) := by
  intro s; exact ⟨rfl, rfl⟩

theorem quiet_stop {α : Type} (h : Halt) : Quiet (stop h : M α) := by
  intro s; exact ⟨rfl, rfl⟩

theorem quiet_print (t : String) : Quiet (emit (Event.print t)) := by
  intro s; simp [Outcome.state, Outcome.trace, dialsOf]

theorem quiet_log (t : String) : Quiet (emit (Event.log t)) := by
  intro s; simp [Outcome.state, Outcome.trace, dialsOf]

theorem quiet_readLine : Quiet readLine := by
  intro s
  cases h : s.stdin <;> simp [readLine, h, Outcome.state, Outcome.trace]

theorem quiet_readLineOrEnd : Quiet readLineOrEnd := by
  intro s
  cases h : s.stdin <;> simp [readLineOrEnd, h, Outcome.state, Outcome.trace]

theorem quiet_ite {α : Type} (c : Prop) [Decidable c] {m1 m2 : M α} (h1 : Quiet m1)
    (h2 : Quiet m2) : Quiet (if c then m1 else m2) := by
  split
  · exact h1
  · exact h2


theorem quiet_printEach (fmt : String → String) (l : List String) : Quiet (printEach fmt l) := by
  intro s; simp [printEach_run, Outcome.state, Outcome.trace]

theorem quiet_ForceSelect (env : Env) (q a b : String) : Quiet (ForceSelect env q a b) := by
  intro s
  rcases ForceSelect_run env q a b s with ⟨ans, n, rest, -, hrun⟩ | ⟨n, hrun⟩ <;>
    simp [hrun, Outcome.state, Outcome.trace, dialsOf]

theorem quiet_credentials (env : Env) : Quiet (credentials env) := by
  unfold credentials
  refine quiet_bind (quiet_print _) (fun _ => quiet_bind quiet_readLine (fun _ =>
    quiet_bind (quiet_print _) (fun _ => ?_)))
  dsimp only
  refine quiet_ite _ (quiet_bind quiet_readLineOrEnd (fun r => ?_))
    (quiet_bind (quiet_print _) (fun _ => quiet_bind (quiet_pure _) (fun _ =>
      quiet_bind (quiet_print _) (fun _ => quiet_pure _))))
  cases r with
  | none =>
    exact quiet_bind (quiet_print _) (fun _ => quiet_bind (quiet_pure _) (fun _ =>
      quiet_bind (quiet_print _) (fun _ => quiet_pure _)))
  | some line =>
    exact quiet_bind (quiet_pure _) (fun _ => quiet_bind (quiet_print _) (fun _ => quiet_pure _))

theorem quiet_classifyLoop (scriptMode : String) (cmds acc : List String) :
    Quiet (classifyLoop scriptMode cmds acc) := by
  induction cmds generalizing acc with
  | nil => intro s; simp [classifyLoop, Outcome.state, Outcome.trace]
  | cons i rest ih =>
    intro s
    rw [classifyLoop]
    by_cases hc : scriptMode = "c"
    · subst hc
      rw [if_pos rfl]
      split
      · exact ih _ s
      · exact ih _ s
    · by_cases ho : scriptMode = "o"
      · subst ho
        rw [if_neg (by decide), if_pos rfl]
        split
        · exact ih _ s
        · exact ih _ s
      · rw [if_neg hc, if_neg ho]
        exact quiet_bind (quiet_print _) (fun _ => ih _) s

theorem quiet_printSummary (inputData : cmdDataStruct) (scriptMode : String) :
    Quiet (printSummary inputData scriptMode) := by
  intro s
  by_cases hc : scriptMode = "c" <;>
    simp [printSummary, hc, printEach_run, Outcome.state, Outcome.trace, dialsOf]

theorem quiet_beforeSending (env : Env) (inputData : cmdDataStruct) (scriptMode : String) :
    Quiet (beforeSending env inputData scriptMode) := by
  unfold beforeSending
  refine quiet_bind (quiet_classifyLoop _ _ _) (fun badCmds => ?_)
  split
  · exact quiet_bind (quiet_print _) (fun _ => quiet_bind (quiet_printEach _ _)
      (fun _ => quiet_stop _))
  · refine quiet_bind (quiet_printSummary _ _) (fun _ => quiet_bind (quiet_ForceSelect _ _ _ _)
      (fun ans => ?_))
    split
    · exact quiet_bind (quiet_print _) (fun _ => quiet_stop _)
    · exact quiet_bind (quiet_credentials _) (fun _ => quiet_pure _)

theorem dialsWithin_of_quiet {α : Type} (env : Env) {m : M α} (h : Quiet m) (s : St)
    (addrs : List String) : DialsWithin env s (m s) addrs := by
  obtain ⟨h1, h2⟩ := h s
  refine ⟨by rw [h1], ⟨[], by simp [h2], List.nil_sublist _, by simp [h1]⟩, ?_⟩
  intro n hn1 hn2
  rw [h1] at hn2
  omega

theorem dialsWithin_bind {α β : Type} (env : Env) {m : M α} {f : α → M β} (s : St)
    (l1 l2 : List String) (hm : DialsWithin env s (m s) l1)
    (hf : ∀ a s1, m s = Outcome.ok a s1 → DialsWithin env s1 (f a s1) l2) :
    DialsWithin env s ((m >>= f) s) (l1 ++ l2) := by
  cases h : m s with
  | ok a s1 =>
    rw [h] at hm
    obtain ⟨hle1, ⟨d1, hd1, hs1, hl1⟩, hfail1⟩ := hm
    obtain ⟨hle2, ⟨d2, hd2, hs2, hl2⟩, hfail2⟩ := hf a s1 h
    simp only [Outcome.state, Outcome.trace, Outcome.halted] at hle1 hd1 hl1 hfail1
    simp only [bind_run, h]
    refine ⟨le_trans hle1 hle2, ⟨d1 ++ d2, ?_, List.Sublist.append hs1 hs2, ?_⟩, ?_⟩
    · rw [hd2, hd1, List.append_assoc]
    · rw [List.length_append, hl1, hl2]; omega
    · intro n hn1 hn2 hsome
      by_cases hlt : n < s1.dials
      · have := (hfail1 n hn1 hlt hsome).2
        cases this
      · exact hfail2 n (Nat.le_of_not_lt hlt) hn2 hsome
  | halt hh s1 =>
    rw [h] at hm
    obtain ⟨hle1, ⟨d1, hd1, hs1, hl1⟩, hfail1⟩ := hm
    simp only [bind_run, h]
    exact ⟨hle1, ⟨d1, hd1, hs1.trans (List.sublist_append_left l1 l2), hl1⟩, hfail1⟩

theorem dialsWithin_configDevice (env : Env) (inputData : cmdDataStruct) (d : String) (s : St) :
    DialsWithin env s (configDevice env inputData d s) [d ++ ":830"] := by
  obtain ⟨hd, hdl, -, -, hrest⟩ := configStage_run env inputData d s
  cases hc : configStage env inputData d s with
  | halt h s1 =>
    have hh : (configStage env inputData d s).halted = some h := by rw [hc]; rfl
    obtain ⟨hh2, hs⟩ := configDevice_of_halted env inputData d s h hh
    refine ⟨by rw [hs, hd]; omega, ⟨[d ++ ":830"], ?_, List.Sublist.refl _, ?_⟩, ?_⟩
    · rw [Outcome.trace, hs]; exact hdl
    · rw [hs, hd]; simp
    · intro n hn1 hn2 hsome
      rw [hs, hd] at hn2
      have hn : n = s.dials := by omega
      subst hn
      refine ⟨by rw [hs, hd], ?_⟩
      cases hdial : env.dial s.dials with
      | none => rw [hdial] at hsome; cases hsome
      | some e =>
        rw [hdial] at hrest
        rw [hh2]
        rw [hrest.1] at hh
        exact hh.symm ▸ rfl
  | ok locked s1 =>
    rw [hc] at hd hdl
    simp only [Outcome.state, Outcome.trace] at hd hdl
    rw [configDevice_of_ok env inputData d s s1 locked hc]
    obtain ⟨hcd, hcdl, -, -⟩ := configConfirm_run env inputData d locked s1
    refine ⟨by rw [hcd, hd]; omega, ⟨[d ++ ":830"], ?_, List.Sublist.refl _, ?_⟩, ?_⟩
    · rw [hcdl, hdl]
    · rw [hcd, hd]; simp
    · intro n hn1 hn2 hsome
      rw [hcd, hd] at hn2
      have hn : n = s.dials := by omega
      subst hn
      exfalso
      cases hdial : env.dial s.dials with
      | none => rw [hdial] at hsome; cases hsome
      | some e =>
        rw [hdial] at hrest
        have := hrest.1
        rw [hc] at this
        cases this

theorem dialsWithin_configLoop (env : Env) (inputData : cmdDataStruct) (ds : List String)
    (s : St) :
    DialsWithin env s (configLoop env inputData ds s) (ds.map (fun d => d ++ ":830")) := by
  induction ds generalizing s with
  | nil => exact dialsWithin_of_quiet env (quiet_pure ()) s _
  | cons d rest ih =>
    rw [configLoop]
    exact dialsWithin_bind env s [d ++ ":830"] (rest.map (fun d => d ++ ":830"))
      (dialsWithin_configDevice env inputData d s) (fun _ s1 _ => ih s1)

theorem quiet_exec (env : Env) (d rpc : String) : Quiet (sessionExec env d rpc) := by
  intro s; simp [Outcome.state, Outcome.trace, dialsOf]

theorem quiet_fileCall (env : Env) (e : Event) (he : dialsOf [e] = []) :
    Quiet (fileCall env e) := by
  intro s; simp [Outcome.state, Outcome.trace, he]

theorem quiet_opCommandLoop (env : Env) (inputData : cmdDataStruct) (saveOuputs : Bool)
    (d : String) (cmds : List String) :
    Quiet (opCommandLoop env inputData saveOuputs d cmds) := by
  induction cmds with
  | nil => rw [opCommandLoop]; exact quiet_pure ()
  | cons c rest ih =>
    rw [opCommandLoop]
    refine quiet_bind (quiet_exec _ _ _) (fun res => ?_)
    refine quiet_ite _ (quiet_bind (quiet_print _) (fun _ => ih)) ?_
    cases res.reply with
    | none => exact quiet_stop _
    | some data =>
      refine quiet_ite _ ?_ (quiet_bind (quiet_print _) (fun _ => ih))
      refine quiet_bind (quiet_fileCall _ _ rfl) (fun r1 => ?_)
      cases r1 with
      | some e => exact quiet_bind (quiet_print _) (fun _ => ih)
      | none =>
        refine quiet_bind (quiet_fileCall _ _ rfl) (fun r2 => ?_)
        cases r2 with
        | some e =>
          exact quiet_bind (quiet_print _) (fun _ => quiet_bind (quiet_print _)
            (fun _ => quiet_bind (quiet_print _) (fun _ => ih)))
        | none => exact quiet_bind (quiet_print _) (fun _ => ih)

theorem quiet_osStat (env : Env) : Quiet (osStat env) := by
  intro s; simp [Outcome.state, Outcome.trace]

theorem quiet_FileExistsAndIsNotADirectory (env : Env) :
    Quiet (FileExistsAndIsNotADirectory env) := by
  unfold FileExistsAndIsNotADirectory FileExists FileIsADirectory
  refine quiet_bind (quiet_bind (quiet_osStat env) (fun _ => quiet_pure _)) (fun b => ?_)
  cases b
  · exact quiet_pure _
  · refine quiet_bind (quiet_bind (quiet_osStat env) (fun _ => quiet_pure _)) (fun b2 => ?_)
    cases b2 <;> exact quiet_pure _

theorem quiet_FileExistsAndIsADirectory (env : Env) :
    Quiet (FileExistsAndIsADirectory env) := by
  unfold FileExistsAndIsADirectory FileExists FileIsADirectory
  refine quiet_bind (quiet_bind (quiet_osStat env) (fun _ => quiet_pure _)) (fun b => ?_)
  cases b
  · exact quiet_pure _
  · refine quiet_bind (quiet_bind (quiet_osStat env) (fun _ => quiet_pure _)) (fun b2 => ?_)
    cases b2 <;> exact quiet_pure _

theorem quiet_createOutputFile (env : Env) (inputData : cmdDataStruct) (saveOuputs : Bool)
    (d : String) : Quiet (createOutputFile env inputData saveOuputs d) := by
  unfold createOutputFile
  refine quiet_ite _ ?_ (quiet_pure _)
  refine quiet_bind (quiet_FileExistsAndIsNotADirectory env) (fun b => ?_)
  cases b
  · refine quiet_bind (quiet_fileCall _ _ rfl) (fun r => ?_)
    cases r with
    | some e => exact quiet_bind (quiet_print _) (fun _ => quiet_pure _)
    | none => exact quiet_pure _
  · exact quiet_pure _

theorem quiet_opMkdir (env : Env) (inputData : cmdDataStruct) (saveOuputs : Bool) :
    Quiet (opMkdir env inputData saveOuputs) := by
  unfold opMkdir
  refine quiet_ite _ ?_ (quiet_pure _)
  refine quiet_bind (quiet_FileExistsAndIsADirectory env) (fun b => ?_)
  cases b
  · refine quiet_bind (quiet_fileCall _ _ rfl) (fun r => ?_)
    cases r with
    | some e => exact quiet_bind (quiet_log _) (fun _ => quiet_stop _)
    | none => exact quiet_pure _
  · exact quiet_pure _

theorem dialsWithin_opSession (env : Env) (inputData : cmdDataStruct) (saveOuputs : Bool)
    (d : String) (s : St) :
    DialsWithin env s (opSession env inputData saveOuputs d s) [d ++ ":830"] := by
  have hQ : Quiet (opCommandLoop env inputData saveOuputs d inputData.CommandList >>= fun _ =>
        if saveOuputs = true then
          emit (Event.print ("Outputs written to: " ++ inputData.ReferenceData ++ "/"
            ++ Replace d "." "_" ++ "\n"))
        else (pure PUnit.unit : M PUnit)) :=
    quiet_bind (quiet_opCommandLoop _ _ _ _ _) (fun _ => quiet_ite _ (quiet_print _) (quiet_pure _))
  cases hdial : env.dial s.dials with
  | some e =>
    refine ⟨?_, ⟨[d ++ ":830"], ?_, List.Sublist.refl _, ?_⟩, ?_⟩ <;>
      simp [opSession, hdial, Outcome.state, Outcome.trace, Outcome.halted, dialsOf]
    intro n hn1 hn2 _
    omega
  | none =>
    obtain ⟨h2a, h2b⟩ := hQ ⟨s.stdin, s.dials + 1, s.execs, s.stats, s.fileOps,
      s.trace ++ [Event.print ("\n\nConnecting to: " ++ d ++ "\n===========================\n"),
        Event.dial (d ++ ":830")]⟩
    have heq : opSession env inputData saveOuputs d s
        = (opCommandLoop env inputData saveOuputs d inputData.CommandList >>= fun _ =>
        if saveOuputs = true then
          emit (Event.print ("Outputs written to: " ++ inputData.ReferenceData ++ "/"
            ++ Replace d "." "_" ++ "\n"))
        else (pure PUnit.unit : M PUnit)) ⟨s.stdin, s.dials + 1, s.execs, s.stats, s.fileOps,
      s.trace ++ [Event.print ("\n\nConnecting to: " ++ d ++ "\n===========================\n"),
        Event.dial (d ++ ":830")]⟩ := by
      simp [opSession, hdial]
    rw [heq]
    refine ⟨by rw [h2a]; simp, ⟨[d ++ ":830"], ?_, List.Sublist.refl _, ?_⟩, ?_⟩
    · rw [h2b]; simp [dialsOf]
    · rw [h2a]; simp
    · intro n hn1 hn2 hsome
      rw [h2a] at hn2
      simp at hn2
      have hn : n = s.dials := by omega
      subst hn
      rw [hdial] at hsome
      cases hsome

theorem dialsWithin_opDevice (env : Env) (inputData : cmdDataStruct) (saveOuputs : Bool)
    (d : String) (s : St) :
    DialsWithin env s (opDevice env inputData saveOuputs d s) [d ++ ":830"] := by
  have h := dialsWithin_bind env (m := createOutputFile env inputData saveOuputs d)
    (f := fun b => if b = true then opSession env inputData saveOuputs d else pure PUnit.unit)
    s [] [d ++ ":830"]
    (dialsWithin_of_quiet env (quiet_createOutputFile env inputData saveOuputs d) s [])
    (fun b s1 _ => by
      cases b
      · exact dialsWithin_of_quiet env (quiet_pure _) s1 _
      · exact dialsWithin_opSession env inputData saveOuputs d s1)
  simpa [opDevice] using h

theorem dialsWithin_opLoop (env : Env) (inputData : cmdDataStruct) (saveOuputs : Bool)
    (ds : List String) (s : St) :
    DialsWithin env s (opLoop env inputData saveOuputs ds s) (ds.map (fun d => d ++ ":830")) := by
  induction ds generalizing s with
  | nil => exact dialsWithin_of_quiet env (quiet_pure ()) s _
  | cons d rest ih =>
    rw [opLoop]
    exact dialsWithin_bind env s [d ++ ":830"] (rest.map (fun d => d ++ ":830"))
      (dialsWithin_opDevice env inputData saveOuputs d s) (fun _ s1 _ => ih s1)

theorem dialsWithin_sendAll (env : Env) (inputData : cmdDataStruct) (saveOuputs : Bool)
    (scriptMode : String) (s : St) :
    DialsWithin env s (sendAll env inputData saveOuputs scriptMode s)
      (inputData.DeviceIPs.map (fun d => d ++ ":830")) := by
  unfold sendAll
  by_cases hc : scriptMode = "c"
  · rw [if_pos hc]
    exact dialsWithin_bind env s [] _ (dialsWithin_of_quiet env (quiet_print _) s [])
      (fun _ s1 _ => dialsWithin_configLoop env inputData _ s1)
  · rw [if_neg hc]
    by_cases ho : scriptMode = "o"
    · rw [if_pos ho]
      exact dialsWithin_bind env s [] _ (dialsWithin_of_quiet env (quiet_print _) s [])
        (fun _ s1 _ => dialsWithin_bind env s1 [] _
          (dialsWithin_of_quiet env (quiet_opMkdir env inputData saveOuputs) s1 [])
          (fun _ s2 _ => dialsWithin_opLoop env inputData saveOuputs _ s2))
    · rw [if_neg ho]
      exact dialsWithin_of_quiet env (quiet_pure _) s _

theorem dialsWithin_mainAfterMode (env : Env) (inputData : cmdDataStruct) (saveOuputs : Bool)
    (scriptMode : String) (s : St) :
    DialsWithin env s (mainAfterMode env inputData saveOuputs scriptMode s)
      (inputData.DeviceIPs.map (fun d => d ++ ":830")) := by
  unfold mainAfterMode
  exact dialsWithin_bind env s [] _
    (dialsWithin_of_quiet env (quiet_beforeSending env inputData scriptMode) s [])
    (fun _ s1 _ => dialsWithin_sendAll env inputData saveOuputs scriptMode s1)

theorem configLoop_append (env : Env) (inputData : cmdDataStruct) (pre rest : List String)
    (s : St) :
    configLoop env inputData (pre ++ rest) s
      = match configLoop env inputData pre s with
        | Outcome.ok _ s1 => configLoop env inputData rest s1
        | Outcome.halt h s1 => Outcome.halt h s1 := by
  induction pre generalizing s with
  | nil => simp [configLoop]
  | cons d ds ih =>
    simp only [List.cons_append, configLoop, bind_run]
    cases configDevice env inputData d s with
    | ok u s1 => exact ih s1
    | halt h s1 => rfl

theorem opLoop_append (env : Env) (inputData : cmdDataStruct) (saveOuputs : Bool)
    (pre rest : List String) (s : St) :
    opLoop env inputData saveOuputs (pre ++ rest) s
      = match opLoop env inputData saveOuputs pre s with
        | Outcome.ok _ s1 => opLoop env inputData saveOuputs rest s1
        | Outcome.halt h s1 => Outcome.halt h s1 := by
  induction pre generalizing s with
  | nil => simp [opLoop]
  | cons d ds ih =>
    simp only [List.cons_append, opLoop, bind_run]
    cases opDevice env inputData saveOuputs d s with
    | ok u s1 => exact ih s1
    | halt h s1 => rfl

theorem configDevice_dial_fails (env : Env) (inputData : cmdDataStruct) (d e : String) (s : St)
    (hdial : env.dial s.dials = some e) :
    configDevice env inputData d s = Outcome.halt Halt.fatal
      { s with dials := s.dials + 1,
               trace := s.trace ++ [Event.print
                 ("\n\nConnecting to: " ++ d ++ "\n===========================\n"),
                 Event.dial (d ++ ":830"), Event.log ("Error connecting: " ++ e)] } := by
  simp [configDevice, configStage, hdial]

theorem opSession_dial_fails (env : Env) (inputData : cmdDataStruct) (saveOuputs : Bool)
    (d e : String) (s : St) (hdial : env.dial s.dials = some e) :
    opSession env inputData saveOuputs d s = Outcome.halt Halt.fatal
      { s with dials := s.dials + 1,
               trace := s.trace ++ [Event.print
                 ("\n\nConnecting to: " ++ d ++ "\n===========================\n"),
                 Event.dial (d ++ ":830"), Event.log ("Error connecting: " ++ e)] } := by
  simp [opSession, hdial]

theorem configDevice_complete (env : Env) (inputData : cmdDataStruct) (d : String) (s s1 : St)
    (h : configDevice env inputData d s = Outcome.ok () s1) :
    dialsOf s1.trace = dialsOf s.trace ++ [d ++ ":830"]
      ∧ ∃ op, (op = discardRpc ∨ op = commitRpc inputData.ReferenceData)
          ∧ (execsOf s1.trace = execsOf s.trace
                ++ [lockRpc, loadRpc (buildSetString inputData.CommandList), validateRpc,
                    diffRpc, op]
            ∨ execsOf s1.trace = execsOf s.trace
                ++ [lockRpc, loadRpc (buildSetString inputData.CommandList), validateRpc,
                    diffRpc, op, unlockRpc]) := by
  obtain ⟨-, hdl, -, -, -⟩ := configStage_run env inputData d s
  rcases configStage_cases env inputData d s with
    ⟨hh, hhalt, -, -, -⟩ | ⟨s2, hs2, -, -, -, -, hex2⟩
  · obtain ⟨hh2, -⟩ := configDevice_of_halted env inputData d s hh hhalt
    rw [h] at hh2
    cases hh2
  · rw [hs2] at hdl
    simp only [Outcome.trace, Outcome.state] at hdl
    rw [configDevice_of_ok env inputData d s s2 _ hs2] at h
    obtain ⟨-, hcd, -, hc⟩ := configConfirm_run env inputData d (!(env.exec s.execs).err) s2
    rw [h] at hcd hc
    simp only [Outcome.trace, Outcome.state, Outcome.halted] at hcd hc
    refine ⟨by rw [hcd, hdl], ?_⟩
    rcases hc with ⟨hh, -, -⟩ | ⟨-, ans, op, hop, -, hex⟩
    · cases hh
    · refine ⟨op, ?_, ?_⟩
      · rcases hop with ⟨-, h2⟩ | ⟨-, h2⟩
        · exact Or.inl h2
        · exact Or.inr h2
      · rw [hex, hex2]
        cases (env.exec s.execs).err <;> simp

theorem configLoop_complete (env : Env) (inputData : cmdDataStruct) (pre : List String)
    (s s1 : St) (h : configLoop env inputData pre s = Outcome.ok () s1) :
    dialsOf s1.trace = dialsOf s.trace ++ pre.map (fun d => d ++ ":830")
      ∧ ∃ reqs : List (List String), reqs.length = pre.length
          ∧ execsOf s1.trace = execsOf s.trace ++ reqs.flatten
          ∧ ∀ r ∈ reqs, ∃ op, (op = discardRpc ∨ op = commitRpc inputData.ReferenceData)
              ∧ (r = [lockRpc, loadRpc (buildSetString inputData.CommandList), validateRpc,
                    diffRpc, op]
                ∨ r = [lockRpc, loadRpc (buildSetString inputData.CommandList), validateRpc,
                    diffRpc, op, unlockRpc]) := by
  induction pre generalizing s with
  | nil =>
    simp only [configLoop, pure_run] at h
    cases h
    exact ⟨by simp, [], rfl, by simp, by simp⟩
  | cons d ds ih =>
    simp only [configLoop, bind_run] at h
    cases hd : configDevice env inputData d s with
    | halt hh s2 => rw [hd] at h; cases h
    | ok u s2 =>
      rw [hd] at h
      obtain ⟨hdl, op, hop, hex⟩ := configDevice_complete env inputData d s s2 hd
      obtain ⟨hdl2, reqs, hlen, hex2, hshape⟩ := ih s2 h
      refine ⟨by rw [hdl2, hdl]; simp, ?_⟩
      rcases hex with hex | hex
      · refine ⟨[lockRpc, loadRpc (buildSetString inputData.CommandList), validateRpc,
            diffRpc, op] :: reqs, by simp [hlen], by rw [hex2, hex]; simp, ?_⟩
        intro r hr
        rcases List.mem_cons.mp hr with hr | hr
        · exact ⟨op, hop, Or.inl hr⟩
        · exact hshape r hr
      · refine ⟨[lockRpc, loadRpc (buildSetString inputData.CommandList), validateRpc,
            diffRpc, op, unlockRpc] :: reqs, by simp [hlen], by rw [hex2, hex]; simp, ?_⟩
        intro r hr
        rcases List.mem_cons.mp hr with hr | hr
        · exact ⟨op, hop, Or.inr hr⟩
        · exact hshape r hr
theorem opCommandLoop_complete (env : Env) (inputData : cmdDataStruct) (saveOuputs : Bool)
    (d : String) (cmds : List String) (s s1 : St)
    (h : opCommandLoop env inputData saveOuputs d cmds s = Outcome.ok () s1) :
    execsOf s1.trace = execsOf s.trace ++ cmds.map commandRpc
      ∧ dialsOf s1.trace = dialsOf s.trace ∧ s1.dials = s.dials := by
  induction cmds generalizing s with
  | nil =>
    simp only [opCommandLoop, pure_run] at h
    cases h
    simp
  | cons c rest ih =>
    rw [opCommandLoop] at h
    cases herr : (env.exec s.execs).err <;> cases hreply : (env.exec s.execs).reply <;>
      cases saveOuputs <;> cases hf1 : env.fileOp s.fileOps <;>
      cases hf2 : env.fileOp (s.fileOps + 1) <;>
      simp [herr, hreply, hf1, hf2] at h <;>
      simpa [execsOf, dialsOf] using ih _ h

theorem createOutputFile_keeps (env : Env) (inputData : cmdDataStruct) (saveOuputs : Bool)
    (d : String) (s : St) :
    ∃ b s2, createOutputFile env inputData saveOuputs d s = Outcome.ok b s2
      ∧ dialsOf s2.trace = dialsOf s.trace ∧ execsOf s2.trace = execsOf s.trace
      ∧ s2.dials = s.dials
      ∧ ((saveOuputs = false ∨ ∀ n, env.fileOp n = none) → b = true) := by
  cases saveOuputs with
  | false => exact ⟨true, s, by simp [createOutputFile], rfl, rfl, rfl, fun _ => rfl⟩
  | true =>
    cases h1 : env.stat s.stats <;> cases h2 : env.stat (s.stats + 1) <;>
      cases h3 : env.fileOp s.fileOps <;>
      simp [createOutputFile, FileExistsAndIsNotADirectory, FileExists, FileIsADirectory, h1, h2,
        h3, dialsOf, execsOf] <;>
      exact ⟨s.fileOps, by simp [h3]⟩
theorem opSession_complete (env : Env) (inputData : cmdDataStruct) (saveOuputs : Bool)
    (d : String) (s s1 : St)
    (h : opSession env inputData saveOuputs d s = Outcome.ok () s1) :
    dialsOf s1.trace = dialsOf s.trace ++ [d ++ ":830"]
      ∧ execsOf s1.trace = execsOf s.trace ++ inputData.CommandList.map commandRpc := by
  cases hdial : env.dial s.dials with
  | some e =>
    rw [opSession_dial_fails env inputData saveOuputs d e s hdial] at h
    cases h
  | none =>
    cases hloop : opCommandLoop env inputData saveOuputs d inputData.CommandList
        ⟨s.stdin, s.dials + 1, s.execs, s.stats, s.fileOps,
          s.trace ++ [Event.print
            ("\n\nConnecting to: " ++ d ++ "\n===========================\n"),
            Event.dial (d ++ ":830")]⟩ with
    | halt hh s2 =>
      simp [opSession, hdial, hloop] at h
    | ok u s2 =>
      obtain ⟨hex, hdl, -⟩ := opCommandLoop_complete env inputData saveOuputs d _ _ s2 hloop
      cases saveOuputs <;> simp [opSession, hdial, hloop] at h <;> subst h <;>
        simp [hex, hdl, execsOf, dialsOf]

theorem opDevice_complete (env : Env) (inputData : cmdDataStruct) (saveOuputs : Bool)
    (d : String) (s s1 : St)
    (h : opDevice env inputData saveOuputs d s = Outcome.ok () s1) :
    (dialsOf s1.trace = dialsOf s.trace ∧ execsOf s1.trace = execsOf s.trace
        ∧ ¬ (saveOuputs = false ∨ ∀ n, env.fileOp n = none))
      ∨ (dialsOf s1.trace = dialsOf s.trace ++ [d ++ ":830"]
        ∧ execsOf s1.trace = execsOf s.trace ++ inputData.CommandList.map commandRpc) := by
  obtain ⟨b, s2, hc, hdl, hex, -, hb⟩ := createOutputFile_keeps env inputData saveOuputs d s
  cases b with
  | false =>
    left
    simp [opDevice, hc] at h
    subst h
    exact ⟨hdl, hex, fun hh => by have := hb hh; cases this⟩
  | true =>
    right
    simp [opDevice, hc] at h
    obtain ⟨h1, h2⟩ := opSession_complete env inputData saveOuputs d s2 s1 h
    exact ⟨by rw [h1, hdl], by rw [h2, hex]⟩

theorem opLoop_complete (env : Env) (inputData : cmdDataStruct) (saveOuputs : Bool)
    (pre : List String) (s s1 : St)
    (h : opLoop env inputData saveOuputs pre s = Outcome.ok () s1) :
    ∃ served : List String, served.Sublist pre
      ∧ ((saveOuputs = false ∨ ∀ n, env.fileOp n = none) → served = pre)
      ∧ dialsOf s1.trace = dialsOf s.trace ++ served.map (fun d => d ++ ":830")
      ∧ execsOf s1.trace = execsOf s.trace
          ++ (served.map (fun _ => inputData.CommandList.map commandRpc)).flatten := by
  induction pre generalizing s with
  | nil =>
    simp only [opLoop, pure_run] at h
    cases h
    exact ⟨[], List.Sublist.refl _, fun _ => rfl, by simp, by simp⟩
  | cons d ds ih =>
    simp only [opLoop, bind_run] at h
    cases hd : opDevice env inputData saveOuputs d s with
    | halt hh s2 => rw [hd] at h; cases h
    | ok u s2 =>
      rw [hd] at h
      obtain ⟨served, hsub, hall, hdl2, hex2⟩ := ih s2 h
      rcases opDevice_complete env inputData saveOuputs d s s2 hd with
        ⟨hdl, hex, hno⟩ | ⟨hdl, hex⟩
      · exact ⟨served, hsub.trans (List.sublist_cons_self d ds),
          fun hh => absurd hh hno, by rw [hdl2, hdl], by rw [hex2, hex]⟩
      · refine ⟨d :: served, hsub.cons₂ d, fun hh => by rw [hall hh], ?_, ?_⟩
        · rw [hdl2, hdl]; simp
        · rw [hex2, hex]; simp
theorem mainAfterMode_config_split (env : Env) (inputData : cmdDataStruct) (saveOuputs : Bool)
    (st s0 s1 : St) (pre post : List String) (d e : String)
    (hdev : inputData.DeviceIPs = pre ++ d :: post)
    (hpro : (beforeSending env inputData "c" >>= fun _ =>
        emit (Event.print "Proceding to load configs\n")) st = Outcome.ok () s0)
    (hpre : configLoop env inputData pre s0 = Outcome.ok () s1)
    (hfail : env.dial s1.dials = some e) :
    mainAfterMode env inputData saveOuputs "c" st = Outcome.halt Halt.fatal
      { s1 with dials := s1.dials + 1,
                trace := s1.trace ++ [Event.print
                  ("\n\nConnecting to: " ++ d ++ "\n===========================\n"),
                  Event.dial (d ++ ":830"), Event.log ("Error connecting: " ++ e)] } := by
  cases hb : beforeSending env inputData "c" st with
  | halt h sb => simp [hb] at hpro
  | ok u sb =>
    simp only [bind_run, hb, emit_run] at hpro
    have hs0 : s0 = { sb with trace := sb.trace ++ [Event.print "Proceding to load configs\n"] } := by
      cases hpro; rfl
    have hmain : mainAfterMode env inputData saveOuputs "c" st
        = configLoop env inputData inputData.DeviceIPs s0 := by
      simp [mainAfterMode, sendAll, hb, hs0]
    rw [hmain, hdev, configLoop_append, hpre]
    simp only [configLoop, bind_run, configDevice_dial_fails env inputData d e s1 hfail]

theorem mainAfterMode_op_split (env : Env) (inputData : cmdDataStruct) (saveOuputs : Bool)
    (st s0 s1 s2 : St) (pre post : List String) (d e : String)
    (hdev : inputData.DeviceIPs = pre ++ d :: post)
    (hpro : (beforeSending env inputData "o" >>= fun _ =>
        emit (Event.print "Proceding to send operational commands\n") >>= fun _ =>
        opMkdir env inputData saveOuputs) st = Outcome.ok () s0)
    (hpre : opLoop env inputData saveOuputs pre s0 = Outcome.ok () s1)
    (hfile : createOutputFile env inputData saveOuputs d s1 = Outcome.ok true s2)
    (hfail : env.dial s2.dials = some e) :
    mainAfterMode env inputData saveOuputs "o" st = Outcome.halt Halt.fatal
      { s2 with dials := s2.dials + 1,
                trace := s2.trace ++ [Event.print
                  ("\n\nConnecting to: " ++ d ++ "\n===========================\n"),
                  Event.dial (d ++ ":830"), Event.log ("Error connecting: " ++ e)] } := by
  cases hb : beforeSending env inputData "o" st with
  | halt h sb => simp [hb] at hpro
  | ok u sb =>
    simp only [bind_run, hb, emit_run] at hpro
    have hmain : mainAfterMode env inputData saveOuputs "o" st
        = opLoop env inputData saveOuputs inputData.DeviceIPs s0 := by
      simp [mainAfterMode, sendAll, hb, hpro]
    rw [hmain, hdev, opLoop_append, hpre]
    simp only [opLoop, bind_run, opDevice, hfile, if_true,
      opSession_dial_fails env inputData saveOuputs d e s2 hfail]

/-- C6, counterexample. Three devices, the connection to the second one fails: the
run ends in `log.Fatalf`, the first two devices were dialled and the third one
never is. -/
theorem connection_failure_ends_run_counterexample :
    (mainAfterMode (sampleEnv (fun n => if n = 1 then some "timeout" else none)
          (replyAlways "<output>up</output>")) sampleOpOrder false "o"
          (St.start ["y\n", "admin\n", "secret\n"])).halted = some Halt.fatal
      ∧ dialsOf (mainAfterMode (sampleEnv (fun n => if n = 1 then some "timeout" else none)
          (replyAlways "<output>up</output>")) sampleOpOrder false "o"
          (St.start ["y\n", "admin\n", "secret\n"])).trace = ["10.0.0.1:830", "10.0.0.2:830"]
      ∧ "10.0.0.3:830" ∉ dialsOf (mainAfterMode
          (sampleEnv (fun n => if n = 1 then some "timeout" else none)
          (replyAlways "<output>up</output>")) sampleOpOrder false "o"
          (St.start ["y\n", "admin\n", "secret\n"])).trace := by
  decide!

/-- C6, amended. A connection that fails ends the whole run. In every run a
connection that fails is the last one made and the run ends in `log.Fatalf`,
and the addresses dialled are, in order, a sublist of the device list. When
the device list is `pre ++ d :: post`, the devices of `pre` were processed to
the end and the connection to `d` fails, the run ends right after dialling `d`
and no device of `post` is contacted. In configuration mode every device of
`pre` was dialled, in order, and received the lock, load, validate and compare
requests, then a commit or a discard, then possibly an unlock. In operational
mode the devices of `pre` that were not skipped for lack of an output file
(all of them when capture is off or the file operations succeed) were dialled,
in order, and each received every command of the list. -/
theorem connection_failure_ends_whole_run (env : Env) (inputData : cmdDataStruct)
    (saveOuputs : Bool) (scriptMode : String) (st : St) :
    (∀ n, st.dials ≤ n →
        n < (mainAfterMode env inputData saveOuputs scriptMode st).state.dials →
        (env.dial n).isSome = true →
        n + 1 = (mainAfterMode env inputData saveOuputs scriptMode st).state.dials
          ∧ (mainAfterMode env inputData saveOuputs scriptMode st).halted = some Halt.fatal)
      ∧ (∃ dialled,
          dialsOf (mainAfterMode env inputData saveOuputs scriptMode st).trace
              = dialsOf st.trace ++ dialled
            ∧ dialled.Sublist (inputData.DeviceIPs.map (fun d => d ++ ":830"))
            ∧ dialled.length
                = (mainAfterMode env inputData saveOuputs scriptMode st).state.dials
                    - st.dials)
      ∧ (∀ (s0 s1 : St) (pre post : List String) (d e : String),
          scriptMode = "c" →
          inputData.DeviceIPs = pre ++ d :: post →
          (beforeSending env inputData scriptMode >>= fun _ =>
            emit (Event.print "Proceding to load configs\n")) st = Outcome.ok () s0 →
          configLoop env inputData pre s0 = Outcome.ok () s1 →
          env.dial s1.dials = some e →
          mainAfterMode env inputData saveOuputs scriptMode st = Outcome.halt Halt.fatal
              { s1 with dials := s1.dials + 1,
                        trace := s1.trace ++ [Event.print
                          ("\n\nConnecting to: " ++ d ++ "\n===========================\n"),
                          Event.dial (d ++ ":830"), Event.log ("Error connecting: " ++ e)] }
            ∧ dialsOf s1.trace = dialsOf s0.trace ++ pre.map (fun d => d ++ ":830")
            ∧ ∃ reqs : List (List String), reqs.length = pre.length
                ∧ execsOf s1.trace = execsOf s0.trace ++ reqs.flatten
                ∧ ∀ r ∈ reqs, ∃ op,
                    (op = discardRpc ∨ op = commitRpc inputData.ReferenceData)
                    ∧ (r = [lockRpc, loadRpc (buildSetString inputData.CommandList),
                          validateRpc, diffRpc, op]
                      ∨ r = [lockRpc, loadRpc (buildSetString inputData.CommandList),
                          validateRpc, diffRpc, op, unlockRpc]))
      ∧ (∀ (s0 s1 s2 : St) (pre post : List String) (d e : String),
          scriptMode = "o" →
          inputData.DeviceIPs = pre ++ d :: post →
          (beforeSending env inputData scriptMode >>= fun _ =>
            emit (Event.print "Proceding to send operational commands\n") >>= fun _ =>
            opMkdir env inputData saveOuputs) st = Outcome.ok () s0 →
          opLoop env inputData saveOuputs pre s0 = Outcome.ok () s1 →
          createOutputFile env inputData saveOuputs d s1 = Outcome.ok true s2 →
          env.dial s2.dials = some e →
          mainAfterMode env inputData saveOuputs scriptMode st = Outcome.halt Halt.fatal
              { s2 with dials := s2.dials + 1,
                        trace := s2.trace ++ [Event.print
                          ("\n\nConnecting to: " ++ d ++ "\n===========================\n"),
                          Event.dial (d ++ ":830"), Event.log ("Error connecting: " ++ e)] }
            ∧ ∃ served : List String, served.Sublist pre
                ∧ ((saveOuputs = false ∨ ∀ n, env.fileOp n = none) → served = pre)
                ∧ dialsOf s1.trace = dialsOf s0.trace ++ served.map (fun d => d ++ ":830")
                ∧ execsOf s1.trace = execsOf s0.trace
                    ++ (served.map (fun _ => inputData.CommandList.map commandRpc)).flatten) := by
  obtain ⟨-, h2, h3⟩ := dialsWithin_mainAfterMode env inputData saveOuputs scriptMode st
  refine ⟨h3, h2, ?_, ?_⟩
  · intro s0 s1 pre post d e hm hdev hpro hpre hfail
    subst hm
    exact ⟨mainAfterMode_config_split env inputData saveOuputs st s0 s1 pre post d e hdev hpro
      hpre hfail, configLoop_complete env inputData pre s0 s1 hpre⟩
  · intro s0 s1 s2 pre post d e hm hdev hpro hpre hfile hfail
    subst hm
    exact ⟨mainAfterMode_op_split env inputData saveOuputs st s0 s1 s2 pre post d e hdev hpro
      hpre hfile hfail, opLoop_complete env inputData saveOuputs pre s0 s1 hpre⟩

/-- C6, witness: configuration mode, three devices, the connection to the second
one fails; the first device is processed to the end, the third is not dialled. -/
theorem connection_failure_ends_whole_run_witness :
    (mainAfterMode (sampleEnv (fun n => if n = 1 then some "timeout" else none)
        (replyAlways "<configuration-information/>")) sampleConfigOrder false "c"
        (St.start ["y\n", "admin\n", "secret\n", "y\n"])).halted = some Halt.fatal
      ∧ dialsOf (mainAfterMode (sampleEnv (fun n => if n = 1 then some "timeout" else none)
        (replyAlways "<configuration-information/>")) sampleConfigOrder false "c"
        (St.start ["y\n", "admin\n", "secret\n", "y\n"])).trace
          = ["10.0.0.1:830", "10.0.0.2:830"]
      ∧ execsOf (mainAfterMode (sampleEnv (fun n => if n = 1 then some "timeout" else none)
        (replyAlways "<configuration-information/>")) sampleConfigOrder false "c"
        (St.start ["y\n", "admin\n", "secret\n", "y\n"])).trace
          = [lockRpc, loadRpc "\nset system host-name r1", validateRpc, diffRpc,
              commitRpc "run-42", unlockRpc] := by
  have h := ((connection_failure_ends_whole_run
    (sampleEnv (fun n => if n = 1 then some "timeout" else none)
      (replyAlways "<configuration-information/>")) sampleConfigOrder false "c"
    (St.start ["y\n", "admin\n", "secret\n", "y\n"])).2.2.1
    ((beforeSending (sampleEnv (fun n => if n = 1 then some "timeout" else none)
        (replyAlways "<configuration-information/>")) sampleConfigOrder "c" >>= fun _ =>
      emit (Event.print "Proceding to load configs\n"))
      (St.start ["y\n", "admin\n", "secret\n", "y\n"])).state
    (configLoop (sampleEnv (fun n => if n = 1 then some "timeout" else none)
        (replyAlways "<configuration-information/>")) sampleConfigOrder ["10.0.0.1"]
      ((beforeSending (sampleEnv (fun n => if n = 1 then some "timeout" else none)
          (replyAlways "<configuration-information/>")) sampleConfigOrder "c" >>= fun _ =>
        emit (Event.print "Proceding to load configs\n"))
        (St.start ["y\n", "admin\n", "secret\n", "y\n"])).state).state
    ["10.0.0.1"] ["10.0.0.3"] "10.0.0.2" "timeout" rfl rfl (by decide!) (by decide!)
    (by decide!)).1
  rw [h]
  decide!

end JunosSend
